import Mathlib

/-!
Verification of the cashlabs statement-import pipeline.

This file shallowly embeds the pure core of `backend/app/utils.py` and
the import/review/transaction routers (`backend/app/routers/imports.py`,
`transactions.py`, `installments.py`) into Lean, and proves or refutes the
frozen specification claims against that embedding.

Modelling conventions:
* Python `int` is `Int`, Python strings are `String` (processed as `List Char`).
* Python floats are modelled as exact decimal values `mant / 10^exp`
  (an `Int` mantissa and a `Nat` scale); the claims under scrutiny never hit
  a binary-rounding boundary, so exact decimal arithmetic agrees with the
  float computations of the source at every input considered here.
* SHA-256 in `build_dedupe_hash` is modelled by the (injective) preimage key
  string itself: the digest is only ever compared for equality, so any
  injective function is an adequate model (collisions are assumed absent).
* The SQLAlchemy session is modelled by an explicit `DB` record; queries
  become list searches in insertion order, commits are implicit.
* The byte-level file parsers (`parse_csv`, `parse_xlsx`) are not modelled;
  the orchestrator takes the parse outcome (`Except String (List Row)`) as
  input, exactly the boundary at which `import_tabular` consumes them.
-/

set_option maxRecDepth 8000

namespace Cashlabs

/-! ## Character and string helpers (Python `str` semantics) -/

/-- Python `str.lower` restricted to ASCII and Latin-1 letters
(U+00C0..U+00DE map to U+00E0..U+00FE, except the multiplication sign). -/
def pyLower (c : Char) : Char :=
  if 'A' ≤ c ∧ c ≤ 'Z' then Char.ofNat (c.toNat + 32)
  else if 0xC0 ≤ c.toNat ∧ c.toNat ≤ 0xDE ∧ c.toNat ≠ 0xD7 then Char.ofNat (c.toNat + 32)
  else c

/-- Python whitespace as used by `str.strip` / `str.split` on `str`
(`Py_UNICODE_ISSPACE`): the ASCII whitespace and separator controls plus
the Unicode space separators NEL, NBSP, OGHAM, the EN-QUAD..HAIR range,
LSEP, PSEP, NNBSP, MMSP and IDEOGRAPHIC SPACE. -/
def isPyWs (c : Char) : Bool :=
  let n := c.toNat
  (9 ≤ n && n ≤ 13) || (0x1c ≤ n && n ≤ 0x20) ||
  n == 0x85 || n == 0xa0 || n == 0x1680 ||
  (0x2000 ≤ n && n ≤ 0x200a) || n == 0x2028 || n == 0x2029 ||
  n == 0x202f || n == 0x205f || n == 0x3000

/-- Python `str.strip()` on a character list. -/
def stripL (cs : List Char) : List Char :=
  ((cs.dropWhile isPyWs).reverse.dropWhile isPyWs).reverse

/-- Python `str.strip(chars)` on a character list. -/
def stripCharsL (chars : List Char) (cs : List Char) : List Char :=
  ((cs.dropWhile chars.contains).reverse.dropWhile chars.contains).reverse

/-- Python `str.split()` (split on whitespace runs, dropping empties). -/
def splitPyWsAux : List Char → List Char → List (List Char)
  | [], acc => if acc.isEmpty then [] else [acc.reverse]
  | c :: rest, acc =>
    if isPyWs c then
      if acc.isEmpty then splitPyWsAux rest [] else acc.reverse :: splitPyWsAux rest []
    else splitPyWsAux rest (c :: acc)

def splitPyWs (cs : List Char) : List (List Char) := splitPyWsAux cs []

/-- `" ".join(...)` on character lists. -/
def joinSpace (ws : List (List Char)) : List Char := List.intercalate [' '] ws

/-- `normalize_description` from `utils.py`: collapse all whitespace runs to
single spaces and trim. -/
def normalizeDescription (s : String) : String :=
  String.mk (joinSpace (splitPyWs s.toList))

/-- Whether `pat` is a prefix of `cs` (by `==` on characters). -/
def startsWithL : List Char → List Char → Bool
  | [], _ => true
  | _ :: _, [] => false
  | p :: ps, c :: cs => p == c && startsWithL ps cs

/-- Whether `needle` occurs as a contiguous substring of `hay`
(Python `needle in hay`). -/
def containsSubL (needle : List Char) : List Char → Bool
  | [] => needle.isEmpty
  | c :: rest => startsWithL needle (c :: rest) || containsSubL needle rest

/-! ## Exact decimal arithmetic (standing in for Python floats) -/

/-- Value of an all-digit character list. -/
def digitsToNat (cs : List Char) : Nat :=
  cs.foldl (fun a c => a * 10 + (c.toNat - 48)) 0

/-- Round `num / den` (with `den > 0`) to the nearest integer, ties to even:
the behaviour of Python `round` at exact decimal inputs. -/
def roundHalfEven (num den : Int) : Int :=
  let q := Int.fdiv num den
  let r := num - q * den
  if 2 * r < den then q
  else if den < 2 * r then q + 1
  else if q % 2 = 0 then q else q + 1

/-- Parse an unsigned Python float literal made of digits and at most one
dot: returns `(mantissa, scale)` with value `mantissa / 10^scale`. -/
def parseUnsignedDec (cs : List Char) : Option (Int × Nat) :=
  let ip := cs.takeWhile Char.isDigit
  let rest := cs.dropWhile Char.isDigit
  match rest with
  | [] => if ip.isEmpty then none else some ((digitsToNat ip : Int), 0)
  | '.' :: fp =>
    if fp.all Char.isDigit && (!ip.isEmpty || !fp.isEmpty) then
      some (((digitsToNat ip) * 10 ^ fp.length + digitsToNat fp : Int), fp.length)
    else none
  | _ => none

/-- Python `float(raw)` on the residual numeric text (optional sign, digits,
at most one decimal dot; letters were already stripped by the caller so the
exponent/inf/nan forms cannot occur). -/
def parseFloatDec : List Char → Option (Int × Nat)
  | '-' :: cs => (parseUnsignedDec cs).map (fun p => (-p.1, p.2))
  | '+' :: cs => parseUnsignedDec cs
  | cs => parseUnsignedDec cs

/-- `int(round(value * 100))` for the exact decimal `value = mant / 10^exp`. -/
def centsOfDec (mant : Int) (exp : Nat) : Int :=
  roundHalfEven (mant * 100) ((10 : Int) ^ exp)

/-! ## `parse_amount_to_cents` (utils.py lines 35-64) -/

/-- Letters stripped by `re.sub(r"[A-Za-zÀ-ÿ]", "", raw)`. -/
def isLetterLike (c : Char) : Bool :=
  ('A' ≤ c && c ≤ 'Z') || ('a' ≤ c && c ≤ 'z') ||
    (0xC0 ≤ c.toNat && c.toNat ≤ 0xFF)

/-- `str.replace("R$", "")`: remove every occurrence, left to right. -/
def removeRS : List Char → List Char
  | 'R' :: '$' :: rest => removeRS rest
  | c :: rest => c :: removeRS rest
  | [] => []

def debitTokens : List (List Char) :=
  ["debito".toList, "débito".toList, "debit".toList, "dr".toList]

def creditTokens : List (List Char) :=
  ["credito".toList, "crédito".toList, "credit".toList, "cr".toList]

/-- The intermediate state of `parse_amount_to_cents` on a string input,
recording each flag the source computes before the final sign fixup. -/
structure AmountScan where
  debit : Bool
  credit : Bool
  trailDash : Bool
  leadPlus : Bool
  leadMinus : Bool
  numText : List Char
deriving DecidableEq

/-- The scanning phase of `parse_amount_to_cents` on a string:
strip, drop `R$` and spaces, detect debit/credit markers case-insensitively,
strip letters, handle trailing `-` and leading `+`/`-`, and resolve the
decimal-separator convention. -/
def amountScan (s : String) : AmountScan :=
  let raw0 := stripL s.toList
  let raw1 := (removeRS raw0).filter (fun c => c ≠ ' ')
  let lower := raw1.map pyLower
  let deb := debitTokens.any (fun t => containsSubL t lower)
  let cred := creditTokens.any (fun t => containsSubL t lower)
  let raw2 := stripL (raw1.filter (fun c => !isLetterLike c))
  let dash := raw2.getLast? == some '-'
  let raw3 := if dash then raw2.dropLast else raw2
  let plus := raw3.head? == some '+'
  let raw4 := if plus then raw3.tail else raw3
  let minus := raw4.head? == some '-'
  let hasComma := raw4.contains ','
  let hasDot := raw4.contains '.'
  let raw5 :=
    if hasComma && hasDot then
      (raw4.filter (fun c => c ≠ '.')).map (fun c => if c == ',' then '.' else c)
    else if hasComma then raw4.map (fun c => if c == ',' then '.' else c)
    else raw4
  ⟨deb, cred, dash, plus, minus, raw5⟩

/-- `parse_amount_to_cents` on a string input; `none` models the
`ValueError` raised by `float(...)` on non-numeric residue. -/
def parseAmountStr (s : String) : Option Int :=
  let sc := amountScan s
  match parseFloatDec sc.numText with
  | none => none
  | some p =>
    let cents := centsOfDec p.1 p.2
    let neg := sc.debit || sc.trailDash || sc.leadMinus
    let pos := sc.credit || sc.leadPlus
    some (if neg && 0 < cents then -cents
          else if pos && cents < 0 then -cents
          else cents)

/-- A tabular cell as delivered by the CSV/XLSX parsers: an int, a float
(modelled as an exact decimal `mant / 10^exp`), or a string. -/
inductive CellValue where
  | intV (n : Int)
  | floatV (mant : Int) (exp : Nat)
  | strV (s : String)
deriving DecidableEq

/-- `parse_amount_to_cents` over all input kinds: ints pass through
unchanged, floats are rounded after scaling by 100, strings are scanned. -/
def parseAmountToCents : CellValue → Option Int
  | .intV n => some n
  | .floatV m e => some (centsOfDec m e)
  | .strV s => parseAmountStr s

/-! ## `normalize_date` (utils.py lines 14-28) -/

/-- Standard Gregorian leap-year rule. -/
def isLeap (y : Nat) : Bool :=
  (y % 4 == 0 && y % 100 != 0) || y % 400 == 0

def daysInMonth (y m : Nat) : Nat :=
  if m = 2 then (if isLeap y then 29 else 28)
  else if m = 4 || m = 6 || m = 9 || m = 11 then 30
  else 31

/-- Validity of a `datetime.date(y, m, d)` construction. -/
def validYmd (y m d : Nat) : Bool :=
  1 ≤ y && y ≤ 9999 && 1 ≤ m && m ≤ 12 && 1 ≤ d && d ≤ daysInMonth y m

def pad2 (n : Nat) : String :=
  if n < 10 then "0" ++ toString n else toString n

def pad4 (n : Nat) : String :=
  if n < 10 then "000" ++ toString n
  else if n < 100 then "00" ++ toString n
  else if n < 1000 then "0" ++ toString n
  else toString n

/-- `date(y, m, d).isoformat()`. -/
def isoFormat (y m d : Nat) : String :=
  pad4 y ++ "-" ++ pad2 m ++ "-" ++ pad2 d

/-- Field order of a `strptime` date pattern. -/
inductive DateOrder where
  | ymd
  | dmy
  | mdy
deriving DecidableEq

/-- A date format `"%x{sep}%y{sep}%z"` as used in `DATE_FORMATS`. -/
structure DateFmt where
  ord : DateOrder
  sep : Char
deriving DecidableEq

/-- The fixed try-order of `utils.DATE_FORMATS`:
`%Y-%m-%d`, `%d/%m/%Y`, `%d-%m-%Y`, `%m/%d/%Y`, `%d.%m.%Y`. -/
def DATE_FORMATS : List DateFmt :=
  [⟨.ymd, '-'⟩, ⟨.dmy, '/'⟩, ⟨.dmy, '-'⟩, ⟨.mdy, '/'⟩, ⟨.dmy, '.'⟩]

/-- Split at every occurrence of `sep` (like Python `str.split(sep)`). -/
def splitOnC (sep : Char) : List Char → List (List Char)
  | [] => [[]]
  | c :: rest =>
    if c == sep then [] :: splitOnC sep rest
    else
      match splitOnC sep rest with
      | g :: gs => (c :: g) :: gs
      | [] => [[c]]

/-- A 1-2 digit ASCII field with value in `[lo, hi]`: the language of the
`strptime` regex for `%m` (`1[0-2]|0[1-9]|[1-9]`). -/
def fieldNum12 (lo hi : Nat) (cs : List Char) : Option Nat :=
  if cs.all Char.isDigit && (cs.length == 1 || cs.length == 2) then
    let v := digitsToNat cs
    if lo ≤ v && v ≤ hi then some v else none
  else none

/-- The first codepoint of every run of ten Unicode decimal digits
(category `Nd`, Unicode 14 as shipped with CPython 3.11): `re`'s `\d` in a
`str` pattern matches exactly these, and `int()` reads their values. -/
def ndBases : List Nat :=
  [48, 1632, 1776, 1984, 2406, 2534, 2662, 2790, 2918, 3046, 3174, 3302,
   3430, 3558, 3664, 3792, 3872, 4160, 4240, 6112, 6160, 6470, 6608, 6784,
   6800, 6992, 7088, 7232, 7248, 42528, 43216, 43264, 43472, 43504, 43600,
   44016, 65296, 66720, 68912, 69734, 69872, 69942, 70096, 70384, 70736,
   70864, 71248, 71360, 71472, 71904, 72016, 72784, 73040, 73120, 92768,
   92864, 93008, 120782, 120792, 120802, 120812, 120822, 123200, 123632,
   125264, 130032]

/-- Decimal value of a Unicode `Nd` digit character (`none` otherwise). -/
def ndVal (c : Char) : Option Nat :=
  (ndBases.find? (fun b => b ≤ c.toNat && c.toNat ≤ b + 9)).map
    (fun b => c.toNat - b)

/-- The `strptime` `%d` field language
`3[0-1]|[1-2]\d|0[1-9]|[1-9]| [1-9]`: ASCII days 1-31 of one or two
digits, a space-padded single digit, and — through the `\d` of the second
alternative — `1` or `2` followed by any Unicode decimal digit. -/
def fieldDay (cs : List Char) : Option Nat :=
  match cs with
  | [a] => if '1' ≤ a && a ≤ '9' then some (a.toNat - 48) else none
  | [a, b] =>
    if a == '3' && (b == '0' || b == '1') then some (30 + (b.toNat - 48))
    else if a == '1' || a == '2' then
      (ndVal b).map fun d => (a.toNat - 48) * 10 + d
    else if (a == '0' || a == ' ') && '1' ≤ b && b ≤ '9' then
      some (b.toNat - 48)
    else none
  | _ => none

/-- The `strptime` `%Y` field language `\d\d\d\d`: exactly four Unicode
decimal digits, read by `int()`. -/
def fieldYear4 (cs : List Char) : Option Nat :=
  match cs with
  | [a, b, c, d] =>
    (ndVal a).bind fun va => (ndVal b).bind fun vb =>
      (ndVal c).bind fun vc => (ndVal d).map fun vd =>
        ((va * 10 + vb) * 10 + vc) * 10 + vd
  | _ => none

/-- `datetime.strptime(raw, fmt).date()` for one of the five formats:
the whole string must be consumed and the date must be a real calendar
date (else `ValueError`, modelled as `none`). Splitting at the literal
separator is faithful because no field regex can match the separator
characters used here. -/
def tryFormat (f : DateFmt) (cs : List Char) : Option (Nat × Nat × Nat) :=
  match splitOnC f.sep cs with
  | [a, b, c] =>
    (match f.ord with
     | .ymd =>
       (fieldYear4 a).bind fun y => (fieldNum12 1 12 b).bind fun m =>
         (fieldDay c).map fun d => (y, m, d)
     | .dmy =>
       (fieldDay a).bind fun d => (fieldNum12 1 12 b).bind fun m =>
         (fieldYear4 c).map fun y => (y, m, d)
     | .mdy =>
       (fieldNum12 1 12 a).bind fun m => (fieldDay b).bind fun d =>
         (fieldYear4 c).map fun y => (y, m, d)).bind fun t =>
    if validYmd t.1 t.2.1 t.2.2 then some t else none
  | _ => none

/-!
### `datetime.fromisoformat` (the fallback of `normalize_date`)

The repository requires Python ≥ 3.11 (`from datetime import UTC` in
`models.py`), where `fromisoformat` accepts the full ISO-8601 grammar of
the C accelerator `Modules/_datetimemodule.c`: basic (`YYYYMMDD`) and
extended dates, ISO week dates, an arbitrary one-character date/time
separator, compact times, fractions and timezone offsets. The C code
scans the UTF-8 bytes of the string, so the port below works on the
encoded byte list; the one multi-byte character it tolerates (the
datetime separator) is skipped by its UTF-8 length, exactly as the C
code does.
-/

/-- UTF-8 encoding of one scalar value. -/
def utf8Bytes (c : Char) : List Nat :=
  let n := c.toNat
  if n < 0x80 then [n]
  else if n < 0x800 then [0xC0 + n / 64, 0x80 + n % 64]
  else if n < 0x10000 then
    [0xE0 + n / 4096, 0x80 + n / 64 % 64, 0x80 + n % 64]
  else
    [0xF0 + n / 262144, 0x80 + n / 4096 % 64, 0x80 + n / 64 % 64,
     0x80 + n % 64]

/-- Python `str.encode("utf-8")` as a byte list. -/
def encodeUtf8 (cs : List Char) : List Nat := (cs.map utf8Bytes).flatten

/-- ASCII digit test on a byte (C `is_digit`). -/
def isoDigit (b : Nat) : Bool := 48 ≤ b && b ≤ 57

/-- C `parse_digits`: exactly `n` ASCII digits at offset `i`, as a value. -/
def parseDigitsAt (s : List Nat) (i n : Nat) : Option Nat :=
  let digs := (s.drop i).take n
  if digs.length == n && digs.all isoDigit then
    some (digs.foldl (fun a b => a * 10 + (b - 48)) 0)
  else none

/-- C `_find_isoformat_datetime_separator`: the byte offset at which the
date part ends (caller guarantees at least 7 bytes); `none` models the
`YYYY-Www-` shape it rejects outright. -/
def findIsoSep (s : List Nat) : Option Nat :=
  let n := s.length
  if n == 7 then some 7
  else if s.getD 4 0 == 45 then
    if s.getD 5 0 == 87 then
      if n > 8 && s.getD 8 0 == 45 then
        if n == 9 then none
        else if n > 10 && isoDigit (s.getD 10 0) then some 8
        else some 10
      else some 8
    else some 10
  else if s.getD 4 0 == 87 then
    let idx := 7 + ((s.drop 7).takeWhile isoDigit).length
    if idx < 9 then some idx
    else if idx % 2 == 0 then some 7 else some 8
  else some 8

/-- `_days_before_year`: days before January 1st of `year` (for `y ≥ 1`). -/
def daysBeforeYear (y : Nat) : Nat :=
  (y - 1) * 365 + (y - 1) / 4 - (y - 1) / 100 + (y - 1) / 400

/-- `_DAYS_BEFORE_MONTH`, indexed by month (entry 0 unused). -/
def DAYS_BEFORE_MONTH : List Nat :=
  [0, 0, 31, 59, 90, 120, 151, 181, 212, 243, 273, 304, 334]

/-- `_days_before_month`. -/
def daysBeforeMonth (y m : Nat) : Nat :=
  DAYS_BEFORE_MONTH.getD m 0 + (if 2 < m && isLeap y then 1 else 0)

/-- `_ymd2ord`: proleptic-Gregorian ordinal of a date, 0001-01-01 ↦ 1. -/
def ymd2ord (y m d : Nat) : Nat := daysBeforeYear y + daysBeforeMonth y m + d

/-- `_ord2ymd`: inverse of `ymd2ord` via the 400/100/4/1-year cycle. -/
def ord2ymd (n0 : Nat) : Nat × Nat × Nat :=
  let n := n0 - 1
  let n400 := n / 146097
  let r400 := n % 146097
  let n100 := r400 / 36524
  let r100 := r400 % 36524
  let n4 := r100 / 1461
  let r4 := r100 % 1461
  let n1 := r4 / 365
  let r1 := r4 % 365
  let year := n400 * 400 + 1 + n100 * 100 + n4 * 4 + n1
  if n1 == 4 || n100 == 4 then (year - 1, 12, 31)
  else
    let month := (r1 + 50) / 32
    let preceding := daysBeforeMonth year month
    if preceding > r1 then
      (year, month - 1, r1 - (preceding - daysInMonth year (month - 1)) + 1)
    else (year, month, r1 - preceding + 1)

/-- `_isoweek1monday`: ordinal of the Monday of ISO week 1 of `year`. -/
def isoweek1monday (y : Nat) : Nat :=
  let firstday := ymd2ord y 1 1
  let firstweekday := (firstday + 6) % 7
  firstday - firstweekday + (if firstweekday > 3 then 7 else 0)

/-- The week/day range checks of `_isoweek_to_gregorian` (week 53 exists in
years starting Thursday and leap years starting Wednesday); failing them is
reported by the C accelerator as an "Invalid isoformat string" error. -/
def weekRangeOk (y w d : Nat) : Bool :=
  ((1 ≤ w && w < 53) ||
    (w == 53 && 1 ≤ y &&
      (ymd2ord y 1 1 % 7 == 4 || (ymd2ord y 1 1 % 7 == 3 && isLeap y)))) &&
  1 ≤ d && d ≤ 7

/-- ISO week date → Gregorian triple (for `y ≥ 1`; range not yet checked). -/
def weekToYmd (y w d : Nat) : Nat × Nat × Nat :=
  ord2ymd (isoweek1monday y + (w - 1) * 7 + (d - 1))

/-- The date part of an ISO string: calendar or week form. -/
inductive IsoDate where
  | ymd (y m d : Nat)
  | week (y w d : Nat)
deriving DecidableEq

/-- C `parse_isoformat_date` on the date slice: strict ASCII digits,
`YYYY[-]MM[-]DD` or `YYYY[-]Www[[-]D]` with consistent dash use, the whole
slice consumed. Range validation is deferred to the caller. -/
def parseIsoDate (ds : List Nat) : Option IsoDate :=
  (parseDigitsAt ds 0 4).bind fun y =>
  let hasSep := ds.getD 4 0 == 45
  let pos := if hasSep then 5 else 4
  if pos < ds.length && ds.getD pos 0 == 87 then
    (parseDigitsAt ds (pos + 1) 2).bind fun w =>
    let pos2 := pos + 3
    if ds.length ≤ pos2 then some (.week y w 1)
    else if ((ds.getD pos2 0 == 45) != hasSep) then none
    else
      let pos3 := if hasSep then pos2 + 1 else pos2
      (parseDigitsAt ds pos3 1).bind fun d =>
      if pos3 + 1 == ds.length then some (.week y w d) else none
  else
    (parseDigitsAt ds pos 2).bind fun m =>
    let pos2 := pos + 2
    if ((decide (pos2 < ds.length) && ds.getD pos2 0 == 45) != hasSep) then
      none
    else
      let pos3 := if hasSep then pos2 + 1 else pos2
      (parseDigitsAt ds pos3 2).bind fun d =>
      if pos3 + 2 == ds.length then some (.ymd y m d) else none

/-- Fraction tail of C `parse_hh_mm_ss_ff`: up to six digits scaled to
microseconds; the scan after them stops at the first non-digit byte, whose
value decides the return code (`0` exactly for NUL). -/
def hmsfFrac (S : List Nat) (h m sec fracFrom : Nat) :
    Option ((Nat × Nat × Nat × Nat) × Nat) :=
  let toParse := min 6 (S.length - fracFrom)
  (parseDigitsAt S fracFrom toParse).map fun v =>
    let us := v * 10 ^ (6 - toParse)
    match (S.drop (fracFrom + toParse)).dropWhile isoDigit with
    | [] => ((h, m, sec, us), 0)
    | c :: _ => ((h, m, sec, us), if c != 0 then 1 else 0)

/-- Seconds stage of C `parse_hh_mm_ss_ff` (`r` = offset of the SS
digits); the byte read past the end of the slice is the terminator
`term`. -/
def hmsfSec (S : List Nat) (term : Nat) (hasSep : Bool) (h m r : Nat) :
    Option ((Nat × Nat × Nat × Nat) × Nat) :=
  (parseDigitsAt S r 2).bind fun sec =>
  let c := S.getD (r + 2) term
  if r + 3 ≥ S.length then some ((h, m, sec, 0), if c != 0 then 1 else 0)
  else if c == 58 then
    if hasSep then hmsfFrac S h m sec (r + 3) else none
  else if c == 46 || c == 44 then hmsfFrac S h m sec (r + 3)
  else if hasSep then none
  else hmsfFrac S h m sec (r + 2)

/-- Minutes stage of C `parse_hh_mm_ss_ff` (`p` = offset of the MM
digits). -/
def hmsfMin (S : List Nat) (term : Nat) (hasSep : Bool) (h p : Nat) :
    Option ((Nat × Nat × Nat × Nat) × Nat) :=
  (parseDigitsAt S p 2).bind fun m =>
  let c := S.getD (p + 2) term
  if p + 3 ≥ S.length then some ((h, m, 0, 0), if c != 0 then 1 else 0)
  else if c == 58 then
    if hasSep then hmsfSec S term hasSep h m (p + 3) else none
  else if c == 46 || c == 44 then hmsfFrac S h m 0 (p + 3)
  else if hasSep then none
  else hmsfSec S term hasSep h m (p + 2)

/-- C `parse_hh_mm_ss_ff` on a slice `S` whose following byte is `term`
(`0` when the slice runs to the true end of the string): parses
`HH[:?MM[:?SS]][{.,}fff]` in separated or compact form. The second
component is the C return code: `0` when parsing consumed the slice up to
a NUL, `1` when it stopped at the last byte or at non-NUL junk — the
caller accepts `1` only when a timezone marker follows. -/
def parseHmsf (S : List Nat) (term : Nat) :
    Option ((Nat × Nat × Nat × Nat) × Nat) :=
  (parseDigitsAt S 0 2).bind fun h =>
  let c := S.getD 2 term
  if 3 ≥ S.length then some ((h, 0, 0, 0), if c != 0 then 1 else 0)
  else if c == 58 then hmsfMin S term true h 3
  else if c == 46 || c == 44 then hmsfFrac S h 0 0 3
  else hmsfMin S term false h 2

/-- Failure modes of `datetime.fromisoformat`, each with its own
`ValueError` message. -/
inductive IsoErr where
  | grammar
  | offsetBound (totalUs : Int)
  | yearRange (y : Nat)
  | monthRange
  | dayRange
  | hourRange
  | minuteRange
  | secondRange
deriving DecidableEq

/-- C `parse_isoformat_time`: split at the leftmost `Z`/`+`/`-` byte; the
time part must parse with a return code matching the timezone's presence;
a `Z` must be followed by a NUL byte (i.e. end the string), and a numeric
offset must consume the rest and keep `|offset| < 24` hours. Returns the
hour/minute/second used by the later range checks. -/
def parseIsoTime (ts : List Nat) : Except IsoErr (Nat × Nat × Nat) :=
  let L := ts.length
  let tzpos := (ts.takeWhile
    (fun b => !(b == 90 || b == 43 || b == 45))).length
  let term := ts.getD tzpos 0
  match parseHmsf (ts.take tzpos) term with
  | none => .error .grammar
  | some (v, rv) =>
    if tzpos == L then
      if rv == 1 then .error .grammar else .ok (v.1, v.2.1, v.2.2.1)
    else if ts.getD tzpos 0 == 90 then
      if ts.getD (tzpos + 1) 0 != 0 then .error .grammar
      else .ok (v.1, v.2.1, v.2.2.1)
    else
      match parseHmsf (ts.drop (tzpos + 1)) 0 with
      | none => .error .grammar
      | some (w, rvt) =>
        if rvt == 1 then .error .grammar
        else
          let total := (w.1 * 3600 + w.2.1 * 60 + w.2.2.1) * 1000000 + w.2.2.2
          if 86400000000 ≤ total then
            .error (.offsetBound
              (if ts.getD tzpos 0 == 45 then -(total : Int) else (total : Int)))
          else .ok (v.1, v.2.1, v.2.2.1)

/-- `datetime.fromisoformat(·).date()` on the UTF-8 bytes of the input,
per the CPython ≥ 3.11 C accelerator: find the date/time separator, parse
the date slice, parse the time after skipping the separator character by
its UTF-8 length, then apply the constructor range checks in order
(year, month, day, hour, minute, second), with the timezone bound raised
during time parsing. A week date of year 0 reaches the constructor with a
non-positive month (the C conversion has no year precheck), hence the
month error. -/
def fromisoformatDate (cs : List Char) : Except IsoErr (Nat × Nat × Nat) :=
  let s := encodeUtf8 cs
  if s.length < 7 then .error .grammar
  else
    match findIsoSep s with
    | none => .error .grammar
    | some sep =>
      match parseIsoDate (s.take sep) with
      | none => .error .grammar
      | some dres =>
        let weekBad :=
          match dres with
          | .week y w d => !weekRangeOk y w d
          | .ymd _ _ _ => false
        if weekBad then .error .grammar
        else
          let timeRes : Except IsoErr (Nat × Nat × Nat) :=
            if sep < s.length then
              let b := s.getD sep 0
              let skip :=
                if b < 0x80 then 1
                else if b / 16 == 0xE then 3
                else if b / 16 == 0xF then 4
                else 2
              parseIsoTime (s.drop (sep + skip))
            else .ok (0, 0, 0)
          match timeRes with
          | .error e => .error e
          | .ok (h, mi, sec) =>
            match dres with
            | .week 0 _ _ => .error .monthRange
            | _ =>
              let t :=
                match dres with
                | .week y w d => weekToYmd y w d
                | .ymd y m d => (y, m, d)
              if !(1 ≤ t.1 && t.1 ≤ 9999) then .error (.yearRange t.1)
              else if !(1 ≤ t.2.1 && t.2.1 ≤ 12) then .error .monthRange
              else if !(1 ≤ t.2.2 && t.2.2 ≤ daysInMonth t.1 t.2.1) then
                .error .dayRange
              else if !(h ≤ 23) then .error .hourRange
              else if !(mi ≤ 59) then .error .minuteRange
              else if !(sec ≤ 59) then .error .secondRange
              else .ok t

/-- `datetime.fromisoformat(raw).date()` as an `Option` (the fallback
branch of `normalize_date`). -/
def isoFallbackParse (cs : List Char) : Option (Nat × Nat × Nat) :=
  (fromisoformatDate cs).toOption

/-- `normalize_date` from `utils.py`: try the fixed format list in order,
first success wins, then fall back to `datetime.fromisoformat`; `none`
models the escaping `ValueError`. -/
def normalizeDate (s : String) : Option String :=
  let raw := stripL s.toList
  match DATE_FORMATS.findSome? (fun f => tryFormat f raw) with
  | some t => some (isoFormat t.1 t.2.1 t.2.2)
  | none => (isoFallbackParse raw).map fun t => isoFormat t.1 t.2.1 t.2.2

/-- Lowercase hex digit. -/
def hexDigitCh (n : Nat) : Char :=
  if n < 10 then Char.ofNat (48 + n) else Char.ofNat (87 + n)

/-- Characters Python `repr` escapes among those reachable here: the ASCII
controls and DEL plus the non-ASCII separator/format characters around the
whitespace set (soft hyphen, zero-width and directional marks, BOM). -/
def reprEscaped (n : Nat) : Bool :=
  n < 32 || n == 127 || n == 0x85 || n == 0xa0 || n == 0xad ||
  n == 0x1680 || (0x2000 ≤ n && n ≤ 0x200f) || n == 0x2028 || n == 0x2029 ||
  (0x202a ≤ n && n ≤ 0x202f) || n == 0x205f || (0x2060 ≤ n && n ≤ 0x206f) ||
  n == 0x3000 || n == 0xfeff

/-- Python `repr` of a string: quote choice (single unless the string has
a single quote but no double quote), backslash/quote doubling, named
escapes for newline, return and tab, and `\xXX`/`\uXXXX` escapes for the
other non-printables modelled by `reprEscaped`. -/
def pyRepr (s : String) : String :=
  let cs := s.toList
  let quote : Char := if cs.contains '\'' && !cs.contains '"' then '"' else '\''
  let body := cs.flatMap fun c =>
    let n := c.toNat
    if c == '\\' || c == quote then ['\\', c]
    else if c == '\n' then ['\\', 'n']
    else if c == '\r' then ['\\', 'r']
    else if c == '\t' then ['\\', 't']
    else if reprEscaped n then
      if n < 256 then ['\\', 'x', hexDigitCh (n / 16), hexDigitCh (n % 16)]
      else ['\\', 'u', hexDigitCh (n / 4096 % 16), hexDigitCh (n / 256 % 16),
            hexDigitCh (n / 16 % 16), hexDigitCh (n % 16)]
    else [c]
  String.mk (quote :: body ++ [quote])

/-- `repr(datetime.timedelta(microseconds=totalUs))`: normalized to
days/seconds/microseconds with floor division, zero components omitted. -/
def tdRepr (totalUs : Int) : String :=
  let days := Int.fdiv totalUs 86400000000
  let rem := (totalUs - days * 86400000000).toNat
  let secs := rem / 1000000
  let us := rem % 1000000
  let parts :=
    (if days ≠ 0 then ["days=" ++ toString days] else []) ++
    (if secs ≠ 0 then ["seconds=" ++ toString secs] else []) ++
    (if us ≠ 0 then ["microseconds=" ++ toString us] else [])
  "datetime.timedelta(" ++
    (if parts.isEmpty then "0" else String.intercalate ", " parts) ++ ")"

/-- The `ValueError` message of each `fromisoformat` failure mode (`raw`
is the stripped input, interpolated by `repr` into the grammar message). -/
def isoErrMsg (raw : List Char) : IsoErr → String
  | .grammar => "Invalid isoformat string: " ++ pyRepr (String.mk raw)
  | .offsetBound t =>
      "offset must be a timedelta strictly between -timedelta(hours=24)" ++
      " and timedelta(hours=24), not " ++ tdRepr t ++ "."
  | .yearRange y => "year " ++ toString y ++ " is out of range"
  | .monthRange => "month must be in 1..12"
  | .dayRange => "day is out of range for month"
  | .hourRange => "hour must be in 0..23"
  | .minuteRange => "minute must be in 0..59"
  | .secondRange => "second must be in 0..59"

/-- `normalize_date` with the error message of the escaping
`datetime.fromisoformat` `ValueError`. -/
def normalizeDateE (s : String) : Except String String :=
  let raw := stripL s.toList
  match DATE_FORMATS.findSome? (fun f => tryFormat f raw) with
  | some t => Except.ok (isoFormat t.1 t.2.1 t.2.2)
  | none =>
    match fromisoformatDate raw with
    | .ok t => Except.ok (isoFormat t.1 t.2.1 t.2.2)
    | .error e => Except.error (isoErrMsg raw e)

/-! ## `add_months` (utils.py lines 85-91) -/

/-- `add_months`: month arithmetic with Python floor division/modulo and
day-of-month clamped to the target month's length. -/
def addMonths (isoDate : String) (months : Int) : Option String :=
  (tryFormat ⟨.ymd, '-'⟩ isoDate.toList).bind fun t =>
    let month0 : Int := (t.2.1 : Int) - 1 + months
    let year : Int := (t.1 : Int) + Int.fdiv month0 12
    let month : Int := Int.emod month0 12 + 1
    if 1 ≤ year && year ≤ 9999 then
      let day := min t.2.2 (daysInMonth year.toNat month.toNat)
      some (isoFormat year.toNat month.toNat day)
    else none

/-! ## Header inference (utils.py lines 67-82) -/

/-- NFKD-then-ASCII folding for the Latin-1 letters that occur in statement
headers; other non-ASCII characters are dropped (`encode("ascii","ignore")`). -/
def foldLatin (c : Char) : List Char :=
  if c.toNat < 128 then [c]
  else if "ÀÁÂÃÄÅ".toList.contains c then ['A']
  else if "àáâãäå".toList.contains c then ['a']
  else if c == 'Ç' then ['C']
  else if c == 'ç' then ['c']
  else if "ÈÉÊË".toList.contains c then ['E']
  else if "èéêë".toList.contains c then ['e']
  else if "ÌÍÎÏ".toList.contains c then ['I']
  else if "ìíîï".toList.contains c then ['i']
  else if c == 'Ñ' then ['N']
  else if c == 'ñ' then ['n']
  else if "ÒÓÔÕÖ".toList.contains c then ['O']
  else if "òóôõö".toList.contains c then ['o']
  else if "ÙÚÛÜ".toList.contains c then ['U']
  else if "ùúûü".toList.contains c then ['u']
  else if c == 'Ý' then ['Y']
  else if c == 'ý' || c == 'ÿ' then ['y']
  else []

/-- `normalize_header`: fold diacritics to ASCII, replace non-alphanumeric
runs by single spaces, trim, lowercase. -/
def normalizeHeader (s : String) : String :=
  let folded := (s.toList.map foldLatin).flatten
  let spaced := folded.map (fun c => if c.isAlphanum then c else ' ')
  let lowered := (stripL spaced).map pyLower
  String.mk (joinSpace (splitPyWs lowered))

/-- The `{normalize_header(k): k for k in row.keys()}` dict: insertion
order, later duplicates overwrite the stored original. -/
def buildHeaderKeys (keys : List String) : List (String × String) :=
  keys.foldl
    (fun acc k =>
      let n := normalizeHeader k
      if acc.any (fun p => p.1 == n) then
        acc.map (fun p => if p.1 == n then (n, k) else p)
      else acc ++ [(n, k)])
    []

/-- `find_header_key`: exact normalized match first, then first header
containing any candidate as a substring. -/
def findHeaderKey (headers : List (String × String)) (candidates : List String) :
    Option String :=
  let normCands := candidates.map normalizeHeader
  match headers.find? (fun p => normCands.contains p.1) with
  | some p => some p.2
  | none =>
    (headers.find? (fun p =>
      normCands.any (fun c => containsSubL c.toList p.1.toList))).map (fun p => p.2)

/-! ## `map_row` (utils.py lines 128-194) -/

/-- A parsed tabular row: column header to cell value, in column order. -/
def Row : Type := List (String × CellValue)

instance : DecidableEq Row := by
  unfold Row
  infer_instance

/-- An explicit caller-supplied column mapping (the `mapping_json` form
field), used verbatim when present. -/
structure RowMapping where
  dateKey : Option String
  descKey : Option String
  valueKey : Option String
  catKey : Option String
deriving DecidableEq

/-- `row.get(key, dflt)`. -/
def rowGet (row : Row) (key : String) (dflt : CellValue) : CellValue :=
  match row.find? (fun p => p.1 == key) with
  | some p => p.2
  | none => dflt

/-- Python `str(float)` for the exact-decimal float model (only shapes that
matter: a sign, the integer part, a dot, the zero-padded fractional part). -/
def decRepr (m : Int) (e : Nat) : String :=
  let sign := if m < 0 then "-" else ""
  let n := m.natAbs
  if e = 0 then sign ++ toString n ++ ".0"
  else
    let ip := n / 10 ^ e
    let fp := n % 10 ^ e
    let fpDigits := toString fp
    let padded := String.mk (List.replicate (e - fpDigits.length) '0') ++ fpDigits
    sign ++ toString ip ++ "." ++ padded

/-- Python `str(cell)`. -/
def pyStr : CellValue → String
  | .intV n => toString n
  | .floatV m e => decRepr m e
  | .strV s => s

def dateCandidates : List String :=
  ["data", "date", "data compra", "data lancamento", "data transacao",
   "transaction date", "posting date", "competencia"]

def descCandidates : List String :=
  ["descricao", "description", "historico", "lancamento", "estabelecimento",
   "merchant", "detalhes", "texto"]

def valueCandidates : List String :=
  ["valor", "value", "amount", "valor rs", "total", "preco", "price",
   "valor final", "valor transacao"]

def categoryCandidates : List String :=
  ["categoria", "category", "tipo", "segmento"]

/-- The normalized form of one imported row. -/
structure NormRow where
  date : String
  description : String
  amountCents : Int
  category : Option String
deriving DecidableEq

/-- `parse_amount_to_cents` with the error message of the escaping
`float(...)` `ValueError`. -/
def parseAmountE (v : CellValue) : Except String Int :=
  match parseAmountToCents v with
  | some n => Except.ok n
  | none =>
    Except.error ("could not convert string to float: " ++
      pyRepr (String.mk (amountScan (pyStr v)).numText))

/-- `map_row`: resolve the date/description/value/category columns (either
from the explicit mapping or by header inference) and normalize the three
mandatory fields; any failure carries the raised error's message. -/
def mapRow (row : Row) (mapping : Option RowMapping) : Except String NormRow :=
  let keys :=
    match mapping with
    | some mp => (mp.dateKey, mp.descKey, mp.valueKey, mp.catKey)
    | none =>
      let hdrs := buildHeaderKeys (row.map (fun p => p.1))
      (findHeaderKey hdrs dateCandidates, findHeaderKey hdrs descCandidates,
       findHeaderKey hdrs valueCandidates, findHeaderKey hdrs categoryCandidates)
  match keys with
  | (some dk, some sk, some vk, ck) =>
    (normalizeDateE (pyStr (rowGet row dk (.strV "")))).bind fun d =>
      (parseAmountE (rowGet row vk (.strV "0"))).map fun a =>
        { date := d
          description := normalizeDescription (pyStr (rowGet row sk (.strV "")))
          amountCents := a
          category :=
            match ck with
            | some c => some (normalizeDescription (pyStr (rowGet row c (.strV ""))))
            | none => none }
  | _ => Except.error "mapping_not_found"

/-! ## `extract_installment_info` (utils.py lines 197-213) -/

/-- Eat a (possibly empty) run of spaces: after `normalize_description` the
only whitespace left is single spaces, so this is exactly `\s*`. -/
def dropSpaces (cs : List Char) : List Char := cs.dropWhile (fun c => c == ' ')

/-- Case-insensitive literal match, returning the rest of the input. -/
def matchLit : List Char → List Char → Option (List Char)
  | [], cs => some cs
  | _ :: _, [] => none
  | p :: ps, c :: cs => if pyLower c == p then matchLit ps cs else none

/-- The candidate parses of `\d{1,2}` in greedy order (two digits first,
then one), each with the remaining input. -/
def grabDigits12 : List Char → List (Nat × List Char)
  | a :: b :: rest =>
    if a.isDigit && b.isDigit then
      [(digitsToNat [a, b], rest), (digitsToNat [a], b :: rest)]
    else if a.isDigit then [(digitsToNat [a], b :: rest)] else []
  | [a] => if a.isDigit then [(digitsToNat [a], [])] else []
  | [] => []

/-- Try continuations over the greedy candidate list (regex backtracking
over `\d{1,2}`). -/
def tryCands (cands : List (Nat × List Char)) (k : Nat → List Char → Option α) :
    Option α :=
  cands.findSome? (fun p => k p.1 p.2)

/-- Match `\(?\s*parcela\s*(\d{1,2})\s*de\s*(\d{1,2})\s*\)?` (ignore case)
at the head of the input; returns (current, total, rest after the match). -/
def matchParcelaAt (cs : List Char) : Option (Nat × Nat × List Char) :=
  let cs1 := if cs.head? == some '(' then cs.tail else cs
  (matchLit "parcela".toList (dropSpaces cs1)).bind fun cs2 =>
    tryCands (grabDigits12 (dropSpaces cs2)) fun cur cs3 =>
      (matchLit "de".toList (dropSpaces cs3)).bind fun cs4 =>
        tryCands (grabDigits12 (dropSpaces cs4)) fun tot cs5 =>
          let cs6 := dropSpaces cs5
          let cs7 := if cs6.head? == some ')' then cs6.tail else cs6
          some (cur, tot, cs7)

/-- Match `\(\s*(\d{1,2})\s*/\s*(\d{1,2})\s*\)` at the head of the input. -/
def matchFractionAt (cs : List Char) : Option (Nat × Nat × List Char) :=
  match cs with
  | '(' :: cs1 =>
    tryCands (grabDigits12 (dropSpaces cs1)) fun cur cs2 =>
      match dropSpaces cs2 with
      | '/' :: cs3 =>
        tryCands (grabDigits12 (dropSpaces cs3)) fun tot cs4 =>
          match dropSpaces cs4 with
          | ')' :: cs5 => some (cur, tot, cs5)
          | _ => none
      | _ => none
  | _ => none

/-- `pattern.search`: the group values of the leftmost match. -/
def searchGroups (f : List Char → Option (Nat × Nat × List Char)) :
    List Char → Option (Nat × Nat)
  | [] => none
  | c :: rest =>
    match f (c :: rest) with
    | some t => some (t.1, t.2.1)
    | none => searchGroups f rest

/-- `pattern.sub("", text)`: drop every non-overlapping match, scanning
left to right (fuelled; each step consumes at least one character). -/
def subPatFuel (f : List Char → Option (Nat × Nat × List Char)) :
    Nat → List Char → List Char
  | 0, cs => cs
  | _ + 1, [] => []
  | n + 1, c :: rest =>
    match f (c :: rest) with
    | some t => subPatFuel f n t.2.2
    | none => c :: subPatFuel f n rest

def subPat (f : List Char → Option (Nat × Nat × List Char)) (cs : List Char) :
    List Char :=
  subPatFuel f (cs.length + 1) cs

/-- The result of the installment detector. -/
structure InstallmentInfo where
  baseDescription : String
  current : Nat
  total : Nat
deriving DecidableEq

/-- `extract_installment_info`: first pattern that matches wins (and its
validity check is final — an invalid match does not fall through to the
next pattern); the base description is the text with the matched spans
removed and surrounding space/`-`/`/` trimmed. -/
def extractInstallmentInfo (description : String) : Option InstallmentInfo :=
  let text := normalizeDescription description
  let cs := text.toList
  let patterns := [matchParcelaAt, matchFractionAt]
  (patterns.findSome? (fun f =>
      (searchGroups f cs).map (fun g => (f, g)))).bind fun fg =>
    let cur := fg.2.1
    let tot := fg.2.2
    if tot ≤ 1 || cur < 1 || tot < cur then none
    else
      let base := String.mk (stripCharsL [' ', '-', '/']
        (normalizeDescription (String.mk (subPat fg.1 cs))).toList)
      some ⟨if base == "" then text else base, cur, tot⟩

deriving instance DecidableEq for Except

/-! ## Data model (models.py) and the session state -/

/-- A stored transaction row (models.Transaction). -/
structure Tx where
  id : Nat
  userId : Nat
  date : String
  description : String
  amountCents : Int
  categoryId : Option Nat
  accountId : Option Nat
  source : String
  importId : Option Nat
  dedupeHash : String
  installmentGroupId : Option Nat
  installmentNumber : Option Nat
  installmentTotal : Option Nat
deriving DecidableEq

/-- A review-queue entry (models.ImportReviewItem). -/
structure ReviewItem where
  id : Nat
  importId : Nat
  userId : Nat
  rowNumber : Nat
  rawData : String
  error : String
  status : String
  resolvedDate : Option String
  resolvedDescription : Option String
  resolvedAmountCents : Option Int
  resolvedCategoryId : Option Nat
  resolvedAccountId : Option Nat
deriving DecidableEq

/-- An import job (models.ImportJob). -/
structure ImportJob where
  id : Nat
  userId : Nat
  sourceType : String
  filename : String
  status : String
  notes : String
deriving DecidableEq

/-- An owner-scoped category (models.Category). -/
structure Category where
  id : Nat
  userId : Nat
  name : String
deriving DecidableEq

/-- A manual installment plan (models.InstallmentGroup). -/
structure InstallmentGroup where
  id : Nat
  userId : Nat
  baseDescription : String
  totalCents : Int
  installments : Int
  startDate : String
deriving DecidableEq

/-- The persistent store, with fresh-id counters; lists are in insertion
order and `.first()` queries scan from the front. -/
structure DB where
  transactions : List Tx
  reviewItems : List ReviewItem
  jobs : List ImportJob
  categories : List Category
  groups : List InstallmentGroup
  nextTxId : Nat
  nextItemId : Nat
  nextJobId : Nat
  nextGroupId : Nat
deriving DecidableEq

def emptyDB : DB := ⟨[], [], [], [], [], 1, 1, 1, 1⟩

/-! ## Dedupe key builder (utils.py lines 94-96) -/

/-- Python full-string `str.lower()`. -/
def pyLowerStr (s : String) : String := String.mk (s.toList.map pyLower)

/-- `build_dedupe_hash`: the SHA-256 digest of the joined key, modelled by
the key itself (it is only ever compared for equality). -/
def buildDedupeHash (txDate description : String) (amountCents : Int)
    (accountScope : String) : String :=
  txDate ++ "|" ++ pyLowerStr (normalizeDescription description) ++ "|" ++
    toString amountCents ++ "|" ++ accountScope

/-- Python `a or b` over optional ids (`0` and `None` are falsy). -/
def pyOrNat (a b : Option Nat) : Option Nat :=
  match a with
  | some n => if n == 0 then b else some n
  | none => b

/-- `str(account_id or "none")`. -/
def pyOrScope (a : Option Nat) : String :=
  match a with
  | some n => if n == 0 then "none" else toString n
  | none => "none"

/-- The orchestrator's duplicate pre-check: first transaction of this owner
with this account id and dedupe hash. -/
def findExistingTx (db : DB) (userId : Nat) (accountId : Option Nat)
    (h : String) : Option Tx :=
  db.transactions.find? (fun t =>
    t.userId == userId && t.accountId == accountId && t.dedupeHash == h)

/-- `Category.name.ilike(cat_name)` resolution: first category of this
owner whose name matches case-insensitively. -/
def findCategoryId (db : DB) (userId : Nat) (name : String) : Option Nat :=
  (db.categories.find? (fun c =>
    c.userId == userId && pyLowerStr c.name == pyLowerStr name)).map (fun c => c.id)

/-! ## Import orchestrator (routers/imports.py lines 17-119) -/

/-- `json.dumps(row, ensure_ascii=False, default=str)`, modelled verbatim
enough to preserve the row's content. -/
def serializeCell : CellValue → String
  | .strV s => "\"" ++ s ++ "\""
  | .intV n => toString n
  | .floatV m e => decRepr m e

def serializeRow (row : Row) : String :=
  "\x7b" ++ String.intercalate ", "
    (row.map (fun p => "\"" ++ p.1 ++ "\": " ++ serializeCell p.2)) ++ "\x7d"

/-- The three per-import counters. -/
structure RowCounters where
  inserted : Nat
  duplicates : Nat
  pending : Nat
deriving DecidableEq

/-- The per-row loop of `import_tabular` (lines 51-109): normalize, resolve
the category, dedupe-check, insert or count a duplicate; a failing row is
diverted to the review queue and the batch continues. Returns the final
state, the counters and the collected notes in row order. -/
def processRows (userId : Nat) (accountId : Option Nat) (sourceType : String)
    (jobId : Nat) (mapping : Option RowMapping) :
    Nat → List Row → DB → DB × RowCounters × List String
  | _, [], db => (db, ⟨0, 0, 0⟩, [])
  | idx, row :: rest, db =>
    match mapRow row mapping with
    | .error msg =>
      let item : ReviewItem :=
        ⟨db.nextItemId, jobId, userId, idx, serializeRow row, msg, "pending",
         none, none, none, none, accountId⟩
      let db1 := { db with reviewItems := db.reviewItems ++ [item],
                           nextItemId := db.nextItemId + 1 }
      let r := processRows userId accountId sourceType jobId mapping (idx + 1) rest db1
      (r.1, { r.2.1 with pending := r.2.1.pending + 1 },
       ("row " ++ toString idx ++ ": " ++ msg) :: r.2.2)
    | .ok nr =>
      let categoryId :=
        match nr.category with
        | some cname => if cname == "" then none else findCategoryId db userId cname
        | none => none
      let h := buildDedupeHash nr.date nr.description nr.amountCents (pyOrScope accountId)
      match findExistingTx db userId accountId h with
      | some _ =>
        let r := processRows userId accountId sourceType jobId mapping (idx + 1) rest db
        (r.1, { r.2.1 with duplicates := r.2.1.duplicates + 1 }, r.2.2)
      | none =>
        let tx : Tx :=
          ⟨db.nextTxId, userId, nr.date, nr.description, nr.amountCents,
           categoryId, accountId, sourceType, some jobId, h, none, none, none⟩
        let db1 := { db with transactions := db.transactions ++ [tx],
                             nextTxId := db.nextTxId + 1 }
        let r := processRows userId accountId sourceType jobId mapping (idx + 1) rest db1
        (r.1, { r.2.1 with inserted := r.2.1.inserted + 1 }, r.2.2)

/-- `"xlsx" if filename.lower().endswith(".xlsx") else "csv"`. -/
def sourceTypeOf (filename : String) : String :=
  if (pyLowerStr filename).endsWith ".xlsx" then "xlsx" else "csv"

/-- Rewrite one job's status and notes in place. -/
def setJobStatusNotes (db : DB) (jobId : Nat) (status notes : String) : DB :=
  { db with jobs := db.jobs.map (fun j =>
      if j.id == jobId then { j with status := status, notes := notes } else j) }

/-- The orchestrator's success payload. -/
structure ImportResp where
  importId : Nat
  inserted : Nat
  duplicates : Nat
  pending : Nat
deriving DecidableEq

/-- `import_tabular`: create the job before parsing, abort whole on parser
failure (status `needs_review`, error in notes, HTTP 400), else run the
per-row loop and compute the final job status. The parse outcome is taken
as input (the byte-level parsers are outside this model). -/
def importTabular (userId : Nat) (filename : String)
    (parsed : Except String (List Row)) (mapping : Option RowMapping)
    (accountId : Option Nat) (db : DB) : DB × Except Nat ImportResp :=
  let st := sourceTypeOf filename
  let jobId := db.nextJobId
  let job : ImportJob := ⟨jobId, userId, st, filename, "ok", ""⟩
  let db0 := { db with jobs := db.jobs ++ [job], nextJobId := jobId + 1 }
  match parsed with
  | .error e =>
    (setJobStatusNotes db0 jobId "needs_review" ("parse_error: " ++ e),
     Except.error 400)
  | .ok rows =>
    let r := processRows userId accountId st jobId mapping 1 rows db0
    let c := r.2.1
    let status :=
      if c.pending > 0 && c.inserted == 0 then "needs_review"
      else if c.pending > 0 then "partial"
      else "ok"
    (setJobStatusNotes r.1 jobId status (String.intercalate "\n" r.2.2),
     Except.ok ⟨jobId, c.inserted, c.duplicates, c.pending⟩)

/-! ## Review queue resolver (routers/imports.py lines 143-208) -/

/-- The corrected fields submitted on confirm (schemas.PendingReviewResolveIn,
also the shape of schemas.TransactionIn). -/
structure ResolvePayload where
  date : String
  description : String
  amountCents : Int
  categoryId : Option Nat
  accountId : Option Nat
deriving DecidableEq

structure ConfirmResp where
  status : String
  transactionId : Nat
deriving DecidableEq

/-- `confirm_pending_row`: recompute the dedupe hash from the corrected
fields; on collision mark the item `duplicate` (nothing else changes), else
insert the transaction, snapshot the resolved fields, and promote the
owning job to `ok` when no pending items remain. -/
def confirmPendingRow (userId : Nat) (reviewItemId : Nat) (p : ResolvePayload)
    (db : DB) : DB × Except Nat ConfirmResp :=
  match db.reviewItems.find? (fun it =>
      it.id == reviewItemId && it.userId == userId && it.status == "pending") with
  | none => (db, Except.error 404)
  | some item =>
    let acct := pyOrNat p.accountId item.resolvedAccountId
    let h := buildDedupeHash p.date p.description p.amountCents (pyOrScope acct)
    match findExistingTx db userId acct h with
    | some ex =>
      ({ db with reviewItems := db.reviewItems.map (fun it =>
            if it.id == item.id then { it with status := "duplicate" } else it) },
       Except.ok ⟨"duplicate", ex.id⟩)
    | none =>
      let tx : Tx :=
        ⟨db.nextTxId, userId, p.date, p.description, p.amountCents, p.categoryId,
         acct, "import_review", some item.importId, h, none, none, none⟩
      let db1 :=
        { db with
          transactions := db.transactions ++ [tx]
          nextTxId := db.nextTxId + 1
          reviewItems := db.reviewItems.map (fun it =>
            if it.id == item.id then
              { it with status := "resolved", resolvedDate := some p.date,
                        resolvedDescription := some p.description,
                        resolvedAmountCents := some p.amountCents,
                        resolvedCategoryId := p.categoryId,
                        resolvedAccountId := acct }
            else it) }
      let pendingCount := (db1.reviewItems.filter (fun it =>
        it.importId == item.importId && it.status == "pending")).length
      let db2 :=
        if pendingCount == 0 then
          { db1 with jobs := db1.jobs.map (fun j =>
              if j.id == item.importId &&
                  (j.status == "needs_review" || j.status == "partial") then
                { j with status := "ok" }
              else j) }
        else db1
      (db2, Except.ok ⟨"resolved", tx.id⟩)

/-! ## Manual entry (routers/transactions.py lines 28-46) -/

/-- `create_transaction`: note the `abs(payload.amount_cents)` — the manual
path stores the magnitude, not the signed amount. -/
def createTransaction (userId : Nat) (p : ResolvePayload) (db : DB) : DB × Nat :=
  let amount := |p.amountCents|
  let h := buildDedupeHash p.date p.description amount (pyOrScope p.accountId)
  let tx : Tx :=
    ⟨db.nextTxId, userId, p.date, normalizeDescription p.description, amount,
     p.categoryId, p.accountId, "manual", none, h, none, none, none⟩
  ({ db with transactions := db.transactions ++ [tx],
             nextTxId := db.nextTxId + 1 }, tx.id)

/-! ## Manual installment plans (routers/installments.py lines 15-64) -/

/-- schemas.InstallmentGroupIn. -/
structure GroupPayload where
  startDate : String
  baseDescription : String
  totalCents : Option Int
  amountPerInstallmentCents : Option Int
  installments : Int
  intervalMonths : Int
  accountId : Option Nat
  categoryId : Option Nat
deriving DecidableEq

/-- Python `str.strip()` on a string. -/
def pyStrip (s : String) : String := String.mk (stripL s.toList)

/-- `create_group`: split `abs(total)` across `n` installments (integer
base plus remainder on the last), one transaction per index with the date
advanced by `(i-1) * interval_months` months; every stored amount passes
through `abs`. A date overflow (the only mid-loop raise) aborts with
nothing persisted, modelled as the 500 error. -/
def createGroup (userId : Nat) (p : GroupPayload) (db : DB) :
    DB × Except Nat Nat :=
  if p.installments ≤ 0 then (db, Except.error 400)
  else
    match (match p.totalCents with
           | some t => some t
           | none => p.amountPerInstallmentCents.map (fun a => a * p.installments)) with
    | none => (db, Except.error 400)
    | some tc0 =>
      let total := |tc0|
      let n := p.installments.toNat
      let baseEach := total / (n : Int)
      let remainder := total - baseEach * (n : Int)
      let groupId := db.nextGroupId
      let mkTx (i : Nat) : Option Tx :=
        let amount := baseEach + (if i == n then remainder else 0)
        (addMonths p.startDate (((i : Int) - 1) * p.intervalMonths)).map fun d =>
          ⟨db.nextTxId + (i - 1), userId, d,
           pyStrip p.baseDescription ++ " (" ++ toString i ++ "/" ++
             toString p.installments ++ ")",
           |amount|, p.categoryId, p.accountId, "manual", none,
           buildDedupeHash d
             (pyStrip p.baseDescription ++ " (" ++ toString i ++ "/" ++
               toString p.installments ++ ")")
             |amount| (pyOrScope p.accountId),
           some groupId, some i, some (p.installments.toNat)⟩
      let txs? := ((List.range n).map (fun k => mkTx (k + 1)))
      if txs?.all Option.isSome then
        let txs := txs?.reduceOption
        let group : InstallmentGroup :=
          ⟨groupId, userId, pyStrip p.baseDescription, total, p.installments,
           p.startDate⟩
        ({ db with transactions := db.transactions ++ txs,
                   groups := db.groups ++ [group],
                   nextTxId := db.nextTxId + n,
                   nextGroupId := groupId + 1 }, Except.ok groupId)
      else (db, Except.error 500)

/-! ## Derived notions used by the claim statements -/

/-- Whether a row normalizes successfully under `map_row`. -/
def rowOk (mp : Option RowMapping) (row : Row) : Bool :=
  match mapRow row mp with
  | .ok _ => true
  | .error _ => false

/-- The dedupe hash an imported row would get (when it normalizes). -/
def rowHashOf (mp : Option RowMapping) (acct : Option Nat) (row : Row) :
    Option String :=
  match mapRow row mp with
  | .ok nr => some (buildDedupeHash nr.date nr.description nr.amountCents (pyOrScope acct))
  | .error _ => none

/-- The dedupe identity of a stored transaction. -/
def txKey (t : Tx) : Nat × Option Nat × String :=
  (t.userId, t.accountId, t.dedupeHash)

/-- The content of a review item (everything but its surrogate id). -/
def itemData (it : ReviewItem) :
    Nat × Nat × Nat × String × String × String × Option Nat :=
  (it.importId, it.userId, it.rowNumber, it.rawData, it.error, it.status,
   it.resolvedAccountId)

/-- The failing rows of a batch with their 1-based index and error message,
starting at index `i`. -/
def rowFailures (mp : Option RowMapping) : Nat → List Row → List (Nat × Row × String)
  | _, [] => []
  | i, row :: rest =>
    match mapRow row mp with
    | .error msg => (i, row, msg) :: rowFailures mp (i + 1) rest
    | .ok _ => rowFailures mp (i + 1) rest

/-- The per-import freshness check: no row's would-be dedupe hash already
names a stored transaction of this owner and account. -/
def rowsFresh (mp : Option RowMapping) (acct : Option Nat) (u : Nat) (db : DB)
    (rows : List Row) : Bool :=
  rows.all fun row =>
    match rowHashOf mp acct row with
    | some h => !(findExistingTx db u acct h).isSome
    | none => true

/-! ## Concrete fixtures for the claim instances -/

def padariaRow : Row :=
  [("Data", .strV "2026-02-01"), ("Descricao", .strV "Padaria"),
   ("Valor", .strV "-12.34")]

def farmaciaRow : Row :=
  [("Data", .strV "2026-02-02"), ("Descricao", .strV "Farmacia"),
   ("Valor", .strV "-77.12")]

def badDateRow : Row :=
  [("Data", .strV "invalid"), ("Descricao", .strV "Item sem data"),
   ("Valor", .strV "-10.00")]

def parceladaRow : Row :=
  [("Data", .strV "2026-02-10"),
   ("Descricao", .strV "CP PARC SHOPPING INTER (Parcela 01 de 04)"),
   ("Valor", .strV "-100.00")]

def itemPayload : ResolvePayload := ⟨"2026-02-15", "Item sem data", -1000, none, none⟩

/-- The review item of the one-bad-row import. -/
def pendingItem : ReviewItem :=
  ⟨1, 1, 1, 1, serializeRow badDateRow, "Invalid isoformat string: 'invalid'",
   "pending", none, none, none, none, none⟩

/-- A job stuck in review with one pending item. -/
def pendingDB : DB :=
  { emptyDB with
    jobs := [⟨1, 1, "csv", "bad.csv", "needs_review",
              "row 1: Invalid isoformat string: 'invalid'"⟩]
    reviewItems := [pendingItem]
    nextItemId := 2
    nextJobId := 2 }

/-- A stored transaction colliding with the corrected fields of
`itemPayload`. -/
def collideTx : Tx :=
  ⟨7, 1, "2026-02-15", "Item sem data", -1000, none, none, "csv", some 1,
   buildDedupeHash "2026-02-15" "Item sem data" (-1000) "none", none, none, none⟩

/-- `pendingDB` plus `collideTx`. -/
def collideDB : DB :=
  { pendingDB with
    transactions := [collideTx]
    nextTxId := 8 }

/-- A manual installment plan payload (the repository's test payload). -/
def notebookPayload : GroupPayload :=
  ⟨"2026-03-05", "Notebook", some 100000, none, 10, 1, none, none⟩

/-- The normalized form of `padariaRow`. -/
def padariaNorm : NormRow := ⟨"2026-02-01", "Padaria", -1234, none⟩

/-! ## Structural lemmas about the orchestrator loop -/

theorem findExistingTx_isSome_iff (db : DB) (u : Nat) (acct : Option Nat)
    (h : String) :
    (findExistingTx db u acct h).isSome = true ↔
      (u, acct, h) ∈ db.transactions.map txKey := by
  unfold findExistingTx
  rw [List.find?_isSome]
  constructor
  · rintro ⟨t, ht, hp⟩
    simp only [Bool.and_eq_true, beq_iff_eq] at hp
    refine List.mem_map.mpr ⟨t, ht, ?_⟩
    simp [txKey, hp.1.1, hp.1.2, hp.2]
  · intro hmem
    rcases List.mem_map.mp hmem with ⟨t, ht, hk⟩
    refine ⟨t, ht, ?_⟩
    simp only [txKey, Prod.mk.injEq] at hk
    simp [hk.1, hk.2.1, hk.2.2]

theorem processRows_spec (u : Nat) (a : Option Nat) (st : String) (j : Nat)
    (mp : Option RowMapping) :
    ∀ (rows : List Row) (i : Nat) (db : DB),
      (processRows u a st j mp i rows db).2.1.pending =
          (rowFailures mp i rows).length ∧
      (processRows u a st j mp i rows db).2.1.inserted +
          (processRows u a st j mp i rows db).2.1.duplicates =
          (rows.filter (rowOk mp)).length ∧
      (processRows u a st j mp i rows db).2.2 =
          (rowFailures mp i rows).map
            (fun q => "row " ++ toString q.1 ++ ": " ++ q.2.2) ∧
      (processRows u a st j mp i rows db).1.reviewItems.map itemData =
          db.reviewItems.map itemData ++
            (rowFailures mp i rows).map
              (fun q => (j, u, q.1, serializeRow q.2.1, q.2.2, "pending", a)) ∧
      (processRows u a st j mp i rows db).1.jobs = db.jobs ∧
      (processRows u a st j mp i rows db).1.nextJobId = db.nextJobId := by
  intro rows
  induction rows with
  | nil => intro i db; simp [processRows, rowFailures]
  | cons row rest ih =>
    intro i db
    rcases hm : mapRow row mp with msg | nr
    · have hok : rowOk mp row = false := by simp [rowOk, hm]
      have h := ih (i + 1)
        { db with
          reviewItems := db.reviewItems ++
            [⟨db.nextItemId, j, u, i, serializeRow row, msg, "pending",
              none, none, none, none, a⟩]
          nextItemId := db.nextItemId + 1 }
      simp only [processRows, hm] at h ⊢
      simp only [rowFailures, hm, List.filter_cons, hok, Bool.false_eq_true,
        if_false, List.map_cons, List.length_cons, List.map_append,
        List.append_assoc] at h ⊢
      refine ⟨by rw [h.1], by rw [h.2.1], by rw [h.2.2.1], ?_, h.2.2.2.2⟩
      rw [h.2.2.2.1]
      simp [itemData]
    · have hok : rowOk mp row = true := by simp [rowOk, hm]
      rcases hf : findExistingTx db u a
          (buildDedupeHash nr.date nr.description nr.amountCents (pyOrScope a)) with
        _ | ex
      · have h := ih (i + 1)
          { db with
            transactions := db.transactions ++
              [⟨db.nextTxId, u, nr.date, nr.description, nr.amountCents,
                (match nr.category with
                 | some cname => if cname == "" then none else findCategoryId db u cname
                 | none => none), a, st, some j,
                buildDedupeHash nr.date nr.description nr.amountCents (pyOrScope a),
                none, none, none⟩]
            nextTxId := db.nextTxId + 1 }
        simp only [processRows, hm, hf] at h ⊢
        simp only [rowFailures, hm, List.filter_cons, hok, if_true,
          List.length_cons] at h ⊢
        exact ⟨h.1, by omega, h.2.2.1, h.2.2.2.1, h.2.2.2.2⟩
      · have h := ih (i + 1) db
        simp only [processRows, hm, hf] at h ⊢
        simp only [rowFailures, hm, List.filter_cons, hok, if_true,
          List.length_cons] at h ⊢
        exact ⟨h.1, by omega, h.2.2.1, h.2.2.2.1, h.2.2.2.2⟩

theorem processRows_all_fresh (u : Nat) (a : Option Nat) (st : String) (j : Nat)
    (mp : Option RowMapping) :
    ∀ (rows : List Row) (i : Nat) (db : DB),
      rows.all (rowOk mp) = true →
      (rows.map (rowHashOf mp a)).Nodup →
      rowsFresh mp a u db rows = true →
      (processRows u a st j mp i rows db).2.1 = ⟨rows.length, 0, 0⟩ ∧
      (processRows u a st j mp i rows db).2.2 = [] ∧
      (processRows u a st j mp i rows db).1.transactions.map txKey =
        db.transactions.map txKey ++
          rows.filterMap (fun row => (rowHashOf mp a row).map (fun h => (u, a, h))) ∧
      (processRows u a st j mp i rows db).1.reviewItems = db.reviewItems ∧
      (processRows u a st j mp i rows db).1.jobs = db.jobs ∧
      (processRows u a st j mp i rows db).1.nextJobId = db.nextJobId := by
  intro rows
  induction rows with
  | nil => intro i db _ _ _; simp [processRows]
  | cons row rest ih =>
    intro i db hall hnodup hfresh
    simp only [List.all_cons, Bool.and_eq_true] at hall
    rcases hm : mapRow row mp with msg | nr
    · simp [rowOk, hm] at hall
    have hh : rowHashOf mp a row =
        some (buildDedupeHash nr.date nr.description nr.amountCents (pyOrScope a)) := by
      simp [rowHashOf, hm]
    simp only [rowsFresh, List.all_cons, Bool.and_eq_true] at hfresh
    have hkey : (findExistingTx db u a
        (buildDedupeHash nr.date nr.description nr.amountCents (pyOrScope a))).isSome
          = false := by
      have h2 := hfresh.1
      rw [hh] at h2
      have h3 : (!(findExistingTx db u a
          (buildDedupeHash nr.date nr.description nr.amountCents
            (pyOrScope a))).isSome) = true := h2
      cases hb : (findExistingTx db u a
          (buildDedupeHash nr.date nr.description nr.amountCents
            (pyOrScope a))).isSome
      · rfl
      · rw [hb] at h3; exact absurd h3 (by simp)
    have hf : findExistingTx db u a
        (buildDedupeHash nr.date nr.description nr.amountCents (pyOrScope a)) =
          none := by
      rcases hc : findExistingTx db u a
          (buildDedupeHash nr.date nr.description nr.amountCents (pyOrScope a)) with
        _ | ex
      · rfl
      · rw [hc] at hkey; simp at hkey
    have hnodup' : rowHashOf mp a row ∉ rest.map (rowHashOf mp a) ∧
        (rest.map (rowHashOf mp a)).Nodup := by
      rw [List.map_cons] at hnodup
      exact List.nodup_cons.mp hnodup
    have hnotmem : some (buildDedupeHash nr.date nr.description nr.amountCents
        (pyOrScope a)) ∉ rest.map (rowHashOf mp a) := by
      rw [← hh]; exact hnodup'.1
    have hdb1tx : ({ db with
        transactions := db.transactions ++
          [⟨db.nextTxId, u, nr.date, nr.description, nr.amountCents,
            (match nr.category with
             | some cname => if cname == "" then none else findCategoryId db u cname
             | none => none), a, st, some j,
            buildDedupeHash nr.date nr.description nr.amountCents (pyOrScope a),
            none, none, none⟩]
        nextTxId := db.nextTxId + 1 } : DB).transactions.map txKey =
        db.transactions.map txKey ++
          [(u, a, buildDedupeHash nr.date nr.description nr.amountCents
            (pyOrScope a))] := by
      simp [txKey]
    have hfresh1 : rowsFresh mp a u
        { db with
          transactions := db.transactions ++
            [⟨db.nextTxId, u, nr.date, nr.description, nr.amountCents,
              (match nr.category with
               | some cname => if cname == "" then none else findCategoryId db u cname
               | none => none), a, st, some j,
              buildDedupeHash nr.date nr.description nr.amountCents (pyOrScope a),
              none, none, none⟩]
          nextTxId := db.nextTxId + 1 } rest = true := by
      have hfresh2 : ∀ row' ∈ rest,
          (match rowHashOf mp a row' with
           | some h => !(findExistingTx db u a h).isSome
           | none => true) = true := by
        rw [← List.all_eq_true]
        exact hfresh.2
      rw [rowsFresh, List.all_eq_true]
      intro row' hmem
      rcases hhr : rowHashOf mp a row' with _ | h'
      · rfl
      show (!(findExistingTx
        { db with
          transactions := db.transactions ++
            [⟨db.nextTxId, u, nr.date, nr.description, nr.amountCents,
              (match nr.category with
               | some cname => if cname == "" then none else findCategoryId db u cname
               | none => none), a, st, some j,
              buildDedupeHash nr.date nr.description nr.amountCents (pyOrScope a),
              none, none, none⟩]
          nextTxId := db.nextTxId + 1 } u a h').isSome) = true
      rcases hcase : findExistingTx
          { db with
            transactions := db.transactions ++
              [⟨db.nextTxId, u, nr.date, nr.description, nr.amountCents,
                (match nr.category with
                 | some cname => if cname == "" then none else findCategoryId db u cname
                 | none => none), a, st, some j,
                buildDedupeHash nr.date nr.description nr.amountCents (pyOrScope a),
                none, none, none⟩]
            nextTxId := db.nextTxId + 1 } u a h' with _ | t
      · rfl
      exfalso
      have hmem1 := (findExistingTx_isSome_iff _ u a h').mp (by rw [hcase]; rfl)
      rw [hdb1tx] at hmem1
      rcases List.mem_append.mp hmem1 with hold | hnew
      · have hthis := hfresh2 row' hmem
        rw [hhr] at hthis
        have h4 : (!(findExistingTx db u a h').isSome) = true := hthis
        rw [← findExistingTx_isSome_iff] at hold
        rw [hold] at h4
        exact absurd h4 (by simp)
      · simp only [List.mem_singleton, Prod.mk.injEq] at hnew
        exact hnotmem (by
          rw [← hnew.2.2, ← hhr]
          exact List.mem_map_of_mem (rowHashOf mp a) hmem)
    have ihr := ih (i + 1)
      { db with
        transactions := db.transactions ++
          [⟨db.nextTxId, u, nr.date, nr.description, nr.amountCents,
            (match nr.category with
             | some cname => if cname == "" then none else findCategoryId db u cname
             | none => none), a, st, some j,
            buildDedupeHash nr.date nr.description nr.amountCents (pyOrScope a),
            none, none, none⟩]
        nextTxId := db.nextTxId + 1 } hall.2 hnodup'.2 hfresh1
    simp only [processRows, hm, hf] at ihr ⊢
    refine ⟨?_, ihr.2.1, ?_, ihr.2.2.2.1, ihr.2.2.2.2.1, ihr.2.2.2.2.2⟩
    · rw [ihr.1]; rfl
    · rw [ihr.2.2.1, hdb1tx, List.filterMap_cons]
      simp [hh, List.append_assoc]

theorem processRows_all_dup (u : Nat) (a : Option Nat) (st : String) (j : Nat)
    (mp : Option RowMapping) :
    ∀ (rows : List Row) (i : Nat) (db : DB),
      rows.all (rowOk mp) = true →
      (∀ row ∈ rows, ∀ h, rowHashOf mp a row = some h →
        (findExistingTx db u a h).isSome = true) →
      processRows u a st j mp i rows db = (db, ⟨0, rows.length, 0⟩, []) := by
  intro rows
  induction rows with
  | nil => intro i db _ _; simp [processRows]
  | cons row rest ih =>
    intro i db hall hpresent
    simp only [List.all_cons, Bool.and_eq_true] at hall
    rcases hm : mapRow row mp with msg | nr
    · simp [rowOk, hm] at hall
    have hh : rowHashOf mp a row =
        some (buildDedupeHash nr.date nr.description nr.amountCents (pyOrScope a)) := by
      simp [rowHashOf, hm]
    have hsome := hpresent row (List.mem_cons_self row rest) _ hh
    rcases hf : findExistingTx db u a
        (buildDedupeHash nr.date nr.description nr.amountCents (pyOrScope a)) with
      _ | ex
    · rw [hf] at hsome; simp at hsome
    have ihr := ih (i + 1) db hall.2
      (fun row' hmem h hhr => hpresent row' (List.mem_cons_of_mem row hmem) h hhr)
    simp only [processRows, hm, hf, ihr]
    rfl

/-- Setting status and notes of the job just appended leaves earlier jobs
untouched when their ids differ. -/
theorem setJobStatusNotes_last (d : DB) (base : List ImportJob) (job : ImportJob)
    (jobId : Nat) (status notes : String) (hbase : d.jobs = base ++ [job])
    (hid : job.id = jobId) (hj : ∀ jb ∈ base, jb.id ≠ job.id) :
    setJobStatusNotes d jobId status notes =
      { d with jobs := base ++ [{ job with status := status, notes := notes }] } := by
  subst hid
  unfold setJobStatusNotes
  rw [hbase, List.map_append, List.map_singleton]
  have hbase' : base.map (fun jb =>
      if jb.id == job.id then { jb with status := status, notes := notes } else jb) =
      base := by
    conv_rhs => rw [← List.map_id base]
    apply List.map_congr_left
    intro jb hmem
    simp [beq_eq_false_iff_ne.mpr (hj jb hmem)]
  rw [hbase']
  simp

/-- `findExistingTx` reads only the transactions list. -/
theorem findExistingTx_eq_of_tx (db db' : DB)
    (htx : db.transactions = db'.transactions) (u : Nat) (acct : Option Nat)
    (h : String) : findExistingTx db u acct h = findExistingTx db' u acct h := by
  unfold findExistingTx
  rw [htx]

/-- `rowsFresh` reads only the transactions list. -/
theorem rowsFresh_eq_of_tx (mp : Option RowMapping) (a : Option Nat) (u : Nat)
    (db db' : DB) (htx : db.transactions = db'.transactions) (rows : List Row) :
    rowsFresh mp a u db rows = rowsFresh mp a u db' rows := by
  unfold rowsFresh
  congr 1
  funext row
  cases hhr : rowHashOf mp a row
  · rfl
  · show (!(findExistingTx db u a _).isSome) = (!(findExistingTx db' u a _).isSome)
    rw [findExistingTx_eq_of_tx db db' htx]

/-- A row that normalizes has a dedupe hash. -/
theorem rowOk_hash (mp : Option RowMapping) (a : Option Nat) (row : Row)
    (hok : rowOk mp row = true) : ∃ h, rowHashOf mp a row = some h := by
  unfold rowOk at hok
  unfold rowHashOf
  rcases hm : mapRow row mp with msg | nr
  · rw [hm] at hok; exact absurd hok (by simp)
  · exact ⟨_, rfl⟩

/-- The mantissa of an unsigned decimal parse is non-negative. -/
theorem parseUnsignedDec_nonneg (cs : List Char) (p : Int × Nat)
    (h : parseUnsignedDec cs = some p) : 0 ≤ p.1 := by
  simp only [parseUnsignedDec] at h
  split at h
  · split at h
    · exact absurd h (by simp)
    · have h2 := Option.some.inj h
      rw [← h2]
      positivity
  · split at h
    · have h2 := Option.some.inj h
      rw [← h2]
      positivity
    · exact absurd h (by simp)
  · exact absurd h (by simp)

/-- A numeric literal starting with a minus sign parses to a non-positive
mantissa. -/
theorem parseFloatDec_nonpos_of_minus (t : List Char) (p : Int × Nat)
    (h : parseFloatDec ('-' :: t) = some p) : p.1 ≤ 0 := by
  have h1 : Option.map (fun q => (-q.1, q.2)) (parseUnsignedDec t) = some p := h
  rcases hq : parseUnsignedDec t with _ | q
  · rw [hq] at h1; exact absurd h1 (by simp)
  · rw [hq] at h1
    have h2 : (-q.1, q.2) = p := Option.some.inj h1
    have h3 := parseUnsignedDec_nonneg t q hq
    rw [← h2]
    omega

/-- Rounding a non-positive quotient half-to-even is non-positive. -/
theorem roundHalfEven_nonpos (num den : Int) (hden : 0 < den) (hnum : num ≤ 0) :
    roundHalfEven num den ≤ 0 := by
  have hq0 : num.fdiv den ≤ 0 := by
    by_contra hq
    push_neg at hq
    have h1 : (1 : Int) ≤ num.fdiv den := hq
    have h2 := Int.fdiv_add_fmod num den
    have h3 := Int.fmod_nonneg' num hden
    nlinarith
  unfold roundHalfEven
  dsimp only
  by_cases hqz : num.fdiv den = 0
  · have hre : num - num.fdiv den * den = num := by rw [hqz, zero_mul, sub_zero]
    split_ifs with h1 h2
    · exact hq0
    · rw [hre] at h1; omega
    · rw [hre] at h1; omega
    · rw [hre] at h1; omega
  · have hq1 : num.fdiv den ≤ -1 := by omega
    split_ifs <;> omega

/-- The decimal-separator transform keeps a leading minus sign. -/
theorem sepTransform_minus_head (raw4 : List Char)
    (hm : (raw4.head? == some '-') = true) :
    ∃ t, (if raw4.contains ',' && raw4.contains '.' then
            (raw4.filter (fun c => c ≠ '.')).map (fun c => if c == ',' then '.' else c)
          else if raw4.contains ',' then raw4.map (fun c => if c == ',' then '.' else c)
          else raw4) = '-' :: t := by
  rcases raw4 with _ | ⟨c, t⟩
  · exact absurd hm (by simp)
  have hc : c = '-' := by simpa using hm
  subst hc
  split_ifs with h1 h2
  · exact ⟨(t.filter (fun c => c ≠ '.')).map (fun c => if c == ',' then '.' else c),
      by simp [List.filter_cons]⟩
  · exact ⟨t.map (fun c => if c == ',' then '.' else c), by simp⟩
  · exact ⟨t, rfl⟩

/-- A scan that saw a leading minus feeds a minus-led literal to `float`. -/
theorem amountScan_minus_head (s : String)
    (hm : (amountScan s).leadMinus = true) :
    ∃ t, (amountScan s).numText = '-' :: t := by
  simp only [amountScan] at hm ⊢
  exact sepTransform_minus_head _ hm

/-! ## Claim theorems -/

/-- C1: the Import Orchestrator does not expand installment rows. On the
spec's own example — description `"CP PARC SHOPPING INTER (Parcela 01 de
04)"`, amount `-10000`, date `2026-02-10` — the installment detector does
find the marker with total `4 > 1`, yet `import_tabular` inserts exactly
one transaction, dated on the row's date, with the marker still in the
description, instead of the four expanded `"{base} ({i}/{4})"`
transactions required by the claim (and by the repository's own test,
which expects 7 insertions for the two-row installment file). -/
theorem import_ignores_installment_marker :
    extractInstallmentInfo "CP PARC SHOPPING INTER (Parcela 01 de 04)" =
      some ⟨"CP PARC SHOPPING INTER", 1, 4⟩ ∧
    (importTabular 1 "installments.csv" (Except.ok [parceladaRow]) none none
      emptyDB).2 = Except.ok ⟨1, 1, 0, 0⟩ ∧
    (importTabular 1 "installments.csv" (Except.ok [parceladaRow]) none none
        emptyDB).1.transactions.map (fun t => (t.date, t.description, t.amountCents)) =
      [("2026-02-10", "CP PARC SHOPPING INTER (Parcela 01 de 04)", (-10000 : Int))] := by
  refine ⟨by decide, by decide, by decide⟩

/-- C10: `parse_amount_to_cents` returns Python ints unchanged (already
minor units) and floats as `round(f * 100)`, so the integer `45` yields
`45` while the float `45.0` yields `4500`. -/
theorem amount_int_float_divergence :
    (∀ n : Int, parseAmountToCents (CellValue.intV n) = some n) ∧
    (∀ m : Int, ∀ e : Nat, parseAmountToCents (CellValue.floatV m e) =
      some (roundHalfEven (m * 100) ((10 : Int) ^ e))) ∧
    parseAmountToCents (CellValue.intV 45) = some 45 ∧
    parseAmountToCents (CellValue.floatV 45 0) = some 4500 ∧
    parseAmountToCents (CellValue.intV 45) ≠ parseAmountToCents (CellValue.floatV 45 0) := by
  refine ⟨fun n => rfl, fun m e => rfl, by decide, by decide, by decide⟩

/-- C5 counterexample: the manual entry point stores `abs(amount_cents)`,
so the expense `-1234` is stored as the positive `1234` — the signed
expenses-negative convention is not applied uniformly across entry
points. -/
theorem manual_entry_abs_counterexample :
    (createTransaction 1 ⟨"2026-02-10", "Compra no mercado", -1234, none, none⟩
        emptyDB).1.transactions.map (fun t => t.amountCents) = [(1234 : Int)] ∧
    ¬((1234 : Int) < 0) := by
  refine ⟨by decide, by decide⟩

/-- C2 counterexample: a file whose rows all normalize successfully but
contains the same line twice (the repository's own idempotency test file)
already reports `duplicates = 1` on the very first import, not
`duplicates = 0`. -/
theorem first_import_duplicates_counterexample :
    rowOk none padariaRow = true ∧
    (importTabular 1 "fatura.csv" (Except.ok [padariaRow, padariaRow]) none none
      emptyDB).2 = Except.ok ⟨1, 1, 1, 0⟩ := by
  refine ⟨by decide, by decide⟩

/-- C9 counterexample: confirming the last pending item of a
`needs_review` job into a duplicate leaves zero pending items, yet the
job's status is not promoted to `ok` — the promotion only runs on the
resolved path. -/
theorem confirm_duplicate_no_promotion_counterexample :
    (confirmPendingRow 1 1 itemPayload collideDB).2 =
      Except.ok ⟨"duplicate", 7⟩ ∧
    ((confirmPendingRow 1 1 itemPayload collideDB).1.reviewItems.filter
      (fun it => it.importId == 1 && it.status == "pending")).length = 0 ∧
    (confirmPendingRow 1 1 itemPayload collideDB).1.jobs.map (fun jb => jb.status) =
      ["needs_review"] := by
  refine ⟨by decide, by decide, by decide⟩

/-- C3 counterexample: `"0,00 DR"` carries a debit marker yet parses to
`0`, which is not negative; and `"45,90 CR DR"` carries a credit marker
yet parses to `-4590`, which is negative — so neither "a debit marker
forces a negative result" nor "a credit marker forces a non-negative
result" holds unconditionally. -/
theorem amount_marker_sign_counterexample :
    parseAmountStr "0,00 DR" = some 0 ∧ ¬((0 : Int) < 0) ∧
    (amountScan "45,90 CR DR").credit = true ∧
    parseAmountStr "45,90 CR DR" = some (-4590) ∧ ¬((0 : Int) ≤ (-4590 : Int)) := by
  refine ⟨by decide, by decide, by decide, by decide, by decide⟩

/-- C3 (amended): `parse_amount_to_cents` maps `"45,90 DR"` to `-4590`,
`"5000,00 CR"` to `500000`, `"R$ 1.234,56"` to `123456` and the float
`-12.34` to `-1234`; in general a debit marker with no credit marker and no
leading plus forces a non-positive result, and a credit marker with no
debit marker and no trailing minus forces a non-negative result (markers
thereby override a parsed leading minus; a debit-marked zero stays `0`,
and with indicators of both signs present the flag matching the parsed
magnitude's sign wins). -/
theorem amount_sign_markers (s : String) (z : Int)
    (hz : parseAmountStr s = some z) :
    parseAmountStr "45,90 DR" = some (-4590) ∧
    parseAmountStr "5000,00 CR" = some 500000 ∧
    parseAmountStr "R$ 1.234,56" = some 123456 ∧
    parseAmountToCents (CellValue.floatV (-1234) 2) = some (-1234) ∧
    ((amountScan s).debit = true → (amountScan s).credit = false →
      (amountScan s).leadPlus = false → z ≤ 0) ∧
    ((amountScan s).credit = true → (amountScan s).debit = false →
      (amountScan s).trailDash = false → 0 ≤ z) := by
  have hz1 : (match parseFloatDec (amountScan s).numText with
    | none => none
    | some p =>
      some (if ((amountScan s).debit || (amountScan s).trailDash ||
              (amountScan s).leadMinus) && 0 < centsOfDec p.1 p.2 then
          -(centsOfDec p.1 p.2)
        else if ((amountScan s).credit || (amountScan s).leadPlus) &&
            centsOfDec p.1 p.2 < 0 then
          -(centsOfDec p.1 p.2)
        else centsOfDec p.1 p.2)) = some z := hz
  rcases hpf : parseFloatDec (amountScan s).numText with _ | p
  · rw [hpf] at hz1; exact absurd hz1 (by simp)
  rw [hpf] at hz1
  have hz2 : (if ((amountScan s).debit || (amountScan s).trailDash ||
        (amountScan s).leadMinus) && 0 < centsOfDec p.1 p.2 then
      -(centsOfDec p.1 p.2)
    else if ((amountScan s).credit || (amountScan s).leadPlus) &&
        centsOfDec p.1 p.2 < 0 then
      -(centsOfDec p.1 p.2)
    else centsOfDec p.1 p.2) = z := Option.some.inj hz1
  refine ⟨by decide, by decide, by decide, by decide, ?_, ?_⟩
  · intro hd hc hp
    rw [hd, hc, hp] at hz2
    simp only [Bool.true_or, Bool.true_and, Bool.false_or, Bool.false_and,
      Bool.false_eq_true, if_false, decide_eq_true_eq] at hz2
    by_cases hcent : 0 < centsOfDec p.1 p.2
    · rw [if_pos hcent] at hz2; omega
    · rw [if_neg hcent] at hz2; omega
  · intro hc hd hdash
    rw [hd, hc, hdash] at hz2
    simp only [Bool.false_or, Bool.true_or, Bool.true_and,
      decide_eq_true_eq] at hz2
    cases hlm : (amountScan s).leadMinus
    · rw [hlm] at hz2
      simp only [Bool.false_and, Bool.false_eq_true, if_false,
        decide_eq_true_eq] at hz2
      by_cases hcc : centsOfDec p.1 p.2 < 0
      · rw [if_pos hcc] at hz2; omega
      · rw [if_neg hcc] at hz2; omega
    · obtain ⟨t, ht⟩ := amountScan_minus_head s hlm
      rw [ht] at hpf
      have hp1 : p.1 ≤ 0 := parseFloatDec_nonpos_of_minus t p hpf
      have hcents : centsOfDec p.1 p.2 ≤ 0 := by
        unfold centsOfDec
        apply roundHalfEven_nonpos
        · positivity
        · nlinarith
      rw [hlm] at hz2
      simp only [Bool.and_true, Bool.true_and] at hz2
      rw [if_neg (by simp; omega)] at hz2
      by_cases hcc : centsOfDec p.1 p.2 < 0
      · rw [if_pos hcc] at hz2; omega
      · rw [if_neg hcc] at hz2; omega

/-- C4: `normalize_date` tries the fixed pattern order Y-M-D, D/M/Y,
D-M-Y, M/D/Y, D.M.Y and returns the ISO rendering of the first pattern
that parses (`"23/02/2026"` → `"2026-02-23"`, `"2026-02-23"` unchanged,
and the ambiguous `"05/04/2026"` resolves day-first); it falls back to
`datetime.fromisoformat`, which on Python ≥ 3.11 also accepts
time-bearing, compact and week-date ISO strings (`"2026-02-23 00:00:00"`,
`"2026-02-23T10:30"`, `"20260223"`, `"2026-W05-3"`), and fails with the
`ValueError` outcome exactly for the strings neither any pattern nor the
fallback accepts. -/
theorem normalize_date_resolution :
    normalizeDate "23/02/2026" = some "2026-02-23" ∧
    normalizeDate "2026-02-23" = some "2026-02-23" ∧
    normalizeDate "2026-02-23 00:00:00" = some "2026-02-23" ∧
    normalizeDate "2026-02-23T10:30" = some "2026-02-23" ∧
    normalizeDate "20260223" = some "2026-02-23" ∧
    normalizeDate "2026-W05-3" = some "2026-01-28" ∧
    normalizeDate "05/04/2026" = some "2026-04-05" ∧
    normalizeDate "99/99/9999" = none ∧
    (∀ s : String, ∀ t : Nat × Nat × Nat,
      DATE_FORMATS.findSome? (fun f => tryFormat f (stripL s.toList)) = some t →
      normalizeDate s = some (isoFormat t.1 t.2.1 t.2.2)) ∧
    (∀ s : String, normalizeDate s = none ↔
      ((DATE_FORMATS.all fun f => (tryFormat f (stripL s.toList)).isNone) = true ∧
       isoFallbackParse (stripL s.toList) = none)) := by
  refine ⟨by decide, by decide, by decide, by decide, by decide, by decide,
    by decide, by decide, ?_, ?_⟩
  · intro s t hfind
    unfold normalizeDate
    dsimp only
    rw [hfind]
  · intro s
    unfold normalizeDate
    dsimp only
    rcases hfs : DATE_FORMATS.findSome? (fun f => tryFormat f (stripL s.toList))
      with _ | t
    · show (isoFallbackParse (stripL s.toList)).map
        (fun t => isoFormat t.1 t.2.1 t.2.2) = none ↔ _
      rw [Option.map_eq_none']
      constructor
      · intro hiso
        refine ⟨?_, hiso⟩
        rw [List.all_eq_true]
        intro f hf
        rw [Option.isNone_iff_eq_none]
        exact List.findSome?_eq_none_iff.mp hfs f hf
      · intro hand
        exact hand.2
    · show some (isoFormat t.1 t.2.1 t.2.2) = none ↔ _
      constructor
      · intro habs
        exact absurd habs (by simp)
      · intro hand
        have hall : ∀ f ∈ DATE_FORMATS, tryFormat f (stripL s.toList) = none := by
          intro f hf
          have := (List.all_eq_true.mp hand.1) f hf
          rw [← Option.isNone_iff_eq_none]
          exact this
        rw [List.findSome?_eq_none_iff.mpr hall] at hfs
        exact absurd hfs (by simp)

/-- C6: when the selected parser fails, the job is set to `needs_review`
with the error recorded in its notes (`parse_error: {exc}`) and persisted,
the import aborts with HTTP 400 to the caller, and no per-row processing
happens — no transactions and no review items are created. -/
theorem parser_failure_aborts_import (u : Nat) (fn e : String)
    (mp : Option RowMapping) (acct : Option Nat) (db : DB)
    (hjobs : ∀ jb ∈ db.jobs, jb.id ≠ db.nextJobId) :
    (importTabular u fn (Except.error e) mp acct db).1 =
      { db with
        jobs := db.jobs ++
          [⟨db.nextJobId, u, sourceTypeOf fn, fn, "needs_review",
            "parse_error: " ++ e⟩]
        nextJobId := db.nextJobId + 1 } ∧
    (importTabular u fn (Except.error e) mp acct db).2 = Except.error 400 ∧
    (importTabular u fn (Except.error e) mp acct db).1.transactions =
      db.transactions ∧
    (importTabular u fn (Except.error e) mp acct db).1.reviewItems =
      db.reviewItems := by
  have hset := setJobStatusNotes_last
    { db with
      jobs := db.jobs ++ [⟨db.nextJobId, u, sourceTypeOf fn, fn, "ok", ""⟩]
      nextJobId := db.nextJobId + 1 }
    db.jobs ⟨db.nextJobId, u, sourceTypeOf fn, fn, "ok", ""⟩ db.nextJobId
    "needs_review" ("parse_error: " ++ e) rfl rfl hjobs
  have hmain : (importTabular u fn (Except.error e) mp acct db).1 =
      { db with
        jobs := db.jobs ++
          [⟨db.nextJobId, u, sourceTypeOf fn, fn, "needs_review",
            "parse_error: " ++ e⟩]
        nextJobId := db.nextJobId + 1 } := by
    show setJobStatusNotes
      { db with
        jobs := db.jobs ++ [⟨db.nextJobId, u, sourceTypeOf fn, fn, "ok", ""⟩]
        nextJobId := db.nextJobId + 1 } db.nextJobId "needs_review"
      ("parse_error: " ++ e) = _
    rw [hset]
  exact ⟨hmain, rfl, by rw [hmain], by rw [hmain]⟩

/-- C7: after the rows of an import are processed, the job's status is
`needs_review` when `pending > 0` and `inserted = 0`, `partial` when
`pending > 0` and `inserted > 0`, and `ok` otherwise; each failing row
contributes one to `pending`, one `"row {idx}: {message}"` line to the
job's notes, and one pending review item carrying the raw row and the
error, while every normalizing row is still processed (counted inserted or
duplicate). -/
theorem row_failures_isolated_and_status (u : Nat) (fn : String)
    (rows : List Row) (mp : Option RowMapping) (acct : Option Nat) (db : DB)
    (hjobs : ∀ jb ∈ db.jobs, jb.id ≠ db.nextJobId) :
    ∃ resp : ImportResp,
      (importTabular u fn (Except.ok rows) mp acct db).2 = Except.ok resp ∧
      resp.pending = (rowFailures mp 1 rows).length ∧
      resp.inserted + resp.duplicates = (rows.filter (rowOk mp)).length ∧
      (importTabular u fn (Except.ok rows) mp acct db).1.jobs =
        db.jobs ++
          [⟨db.nextJobId, u, sourceTypeOf fn, fn,
            (if 0 < resp.pending ∧ resp.inserted = 0 then "needs_review"
             else if 0 < resp.pending then "partial" else "ok"),
            String.intercalate "\n" ((rowFailures mp 1 rows).map
              (fun q => "row " ++ toString q.1 ++ ": " ++ q.2.2))⟩] ∧
      (importTabular u fn (Except.ok rows) mp acct db).1.reviewItems.map itemData =
        db.reviewItems.map itemData ++
          (rowFailures mp 1 rows).map
            (fun q => (db.nextJobId, u, q.1, serializeRow q.2.1, q.2.2,
              "pending", acct)) := by
  simp only [importTabular]
  set r := processRows u acct (sourceTypeOf fn) db.nextJobId mp 1 rows
    { db with
      jobs := db.jobs ++ [⟨db.nextJobId, u, sourceTypeOf fn, fn, "ok", ""⟩]
      nextJobId := db.nextJobId + 1 } with hr
  have hspec := processRows_spec u acct (sourceTypeOf fn) db.nextJobId mp rows 1
    { db with
      jobs := db.jobs ++ [⟨db.nextJobId, u, sourceTypeOf fn, fn, "ok", ""⟩]
      nextJobId := db.nextJobId + 1 }
  rw [← hr] at hspec
  have hset := setJobStatusNotes_last r.1 db.jobs
    ⟨db.nextJobId, u, sourceTypeOf fn, fn, "ok", ""⟩ db.nextJobId
    (if r.2.1.pending > 0 && r.2.1.inserted == 0 then "needs_review"
     else if r.2.1.pending > 0 then "partial" else "ok")
    (String.intercalate "\n" r.2.2)
    (by rw [hspec.2.2.2.2.1]) rfl hjobs
  refine ⟨⟨db.nextJobId, r.2.1.inserted, r.2.1.duplicates, r.2.1.pending⟩, rfl,
    hspec.1, hspec.2.1, ?_, ?_⟩
  · rw [hset, hspec.2.2.1]
    by_cases hp : 0 < r.2.1.pending <;> by_cases hi : r.2.1.inserted = 0 <;>
      simp [hp, hi]
  · exact hspec.2.2.2.1

/-- C2 (amended): a file whose rows all normalize, whose rows have
pairwise-distinct dedupe hashes, and none of whose hashes already names a
stored transaction of this owner and account, imports as
`inserted = N, duplicates = 0` with nothing pending; importing the
identical file again against the resulting state yields
`inserted = 0, duplicates = N` and creates no new transactions. -/
theorem import_reimport_idempotent (u : Nat) (fn1 fn2 : String)
    (rows : List Row) (mp : Option RowMapping) (acct : Option Nat) (db : DB)
    (hok : rows.all (rowOk mp) = true)
    (hnodup : (rows.map (rowHashOf mp acct)).Nodup)
    (hfresh : rowsFresh mp acct u db rows = true) :
    ∀ (db1 : DB) (res1 : Except Nat ImportResp),
      importTabular u fn1 (Except.ok rows) mp acct db = (db1, res1) →
      res1 = Except.ok ⟨db.nextJobId, rows.length, 0, 0⟩ ∧
      (importTabular u fn2 (Except.ok rows) mp acct db1).2 =
        Except.ok ⟨db1.nextJobId, 0, rows.length, 0⟩ ∧
      (importTabular u fn2 (Except.ok rows) mp acct db1).1.transactions =
        db1.transactions := by
  intro db1 res1 heq
  have hfresh0 : rowsFresh mp acct u
      { db with
        jobs := db.jobs ++ [⟨db.nextJobId, u, sourceTypeOf fn1, fn1, "ok", ""⟩]
        nextJobId := db.nextJobId + 1 } rows = true := hfresh
  have hA := processRows_all_fresh u acct (sourceTypeOf fn1) db.nextJobId mp rows 1
    { db with
      jobs := db.jobs ++ [⟨db.nextJobId, u, sourceTypeOf fn1, fn1, "ok", ""⟩]
      nextJobId := db.nextJobId + 1 } hok hnodup hfresh0
  have hdb1 : db1 = (importTabular u fn1 (Except.ok rows) mp acct db).1 := by
    rw [heq]
  have hres1 : res1 = (importTabular u fn1 (Except.ok rows) mp acct db).2 := by
    rw [heq]
  have htx1 : db1.transactions =
      (processRows u acct (sourceTypeOf fn1) db.nextJobId mp 1 rows
        { db with
          jobs := db.jobs ++ [⟨db.nextJobId, u, sourceTypeOf fn1, fn1, "ok", ""⟩]
          nextJobId := db.nextJobId + 1 }).1.transactions := by
    rw [hdb1]
    rfl
  have hpresent : ∀ row ∈ rows, ∀ h, rowHashOf mp acct row = some h →
      (findExistingTx
        { db1 with
          jobs := db1.jobs ++ [⟨db1.nextJobId, u, sourceTypeOf fn2, fn2, "ok", ""⟩]
          nextJobId := db1.nextJobId + 1 } u acct h).isSome = true := by
    intro row hmem h hhash
    show (findExistingTx db1 u acct h).isSome = true
    rw [findExistingTx_isSome_iff, htx1, hA.2.2.1]
    apply List.mem_append_right
    exact List.mem_filterMap.mpr ⟨row, hmem, by rw [hhash]; rfl⟩
  have hB := processRows_all_dup u acct (sourceTypeOf fn2) db1.nextJobId mp rows 1
    { db1 with
      jobs := db1.jobs ++ [⟨db1.nextJobId, u, sourceTypeOf fn2, fn2, "ok", ""⟩]
      nextJobId := db1.nextJobId + 1 } hok hpresent
  refine ⟨?_, ?_, ?_⟩
  · rw [hres1]
    simp only [importTabular]
    rw [hA.1]
  · simp only [importTabular]
    rw [hB]
  · simp only [importTabular]
    rw [hB]
    rfl

/-- C8: confirming a pending review item whose corrected fields' recomputed
dedupe hash matches an existing transaction of the same owner and account
scope marks the item `duplicate`, reports the duplicate outcome with the
matched transaction's id, and creates no new transaction. -/
theorem confirm_duplicate_no_insert (u rid : Nat) (p : ResolvePayload)
    (db : DB) (item : ReviewItem) (ex : Tx)
    (hfind : db.reviewItems.find? (fun it =>
      it.id == rid && it.userId == u && it.status == "pending") = some item)
    (hex : findExistingTx db u (pyOrNat p.accountId item.resolvedAccountId)
      (buildDedupeHash p.date p.description p.amountCents
        (pyOrScope (pyOrNat p.accountId item.resolvedAccountId))) = some ex) :
    (confirmPendingRow u rid p db).2 = Except.ok ⟨"duplicate", ex.id⟩ ∧
    (confirmPendingRow u rid p db).1.transactions = db.transactions ∧
    (confirmPendingRow u rid p db).1.reviewItems =
      db.reviewItems.map (fun it =>
        if it.id == item.id then { it with status := "duplicate" } else it) ∧
    (confirmPendingRow u rid p db).1.jobs = db.jobs := by
  simp only [confirmPendingRow, hfind, hex]
  exact ⟨trivial, trivial, trivial, trivial⟩

/-- C9 (amended): after a pending review item is confirmed to `resolved`,
if zero pending items remain for the owning job and the job's status was
`needs_review` or `partial`, the job is promoted to `ok`; the recount and
promotion only run on the resolved path, so a confirmation that ends in
`duplicate` leaves the job's status untouched. -/
theorem confirm_resolved_promotes_job (u rid : Nat) (p : ResolvePayload)
    (db : DB) (item : ReviewItem)
    (hfind : db.reviewItems.find? (fun it =>
      it.id == rid && it.userId == u && it.status == "pending") = some item)
    (hnoex : findExistingTx db u (pyOrNat p.accountId item.resolvedAccountId)
      (buildDedupeHash p.date p.description p.amountCents
        (pyOrScope (pyOrNat p.accountId item.resolvedAccountId))) = none)
    (hzero : ((confirmPendingRow u rid p db).1.reviewItems.filter (fun it =>
      it.importId == item.importId && it.status == "pending")).length = 0)
    (hst : ∀ jb ∈ db.jobs, jb.id = item.importId →
      jb.status = "needs_review" ∨ jb.status = "partial") :
    (confirmPendingRow u rid p db).2 = Except.ok ⟨"resolved", db.nextTxId⟩ ∧
    (∀ jb ∈ (confirmPendingRow u rid p db).1.jobs, jb.id = item.importId →
      jb.status = "ok") := by
  simp only [confirmPendingRow, hfind, hnoex] at hzero ⊢
  rw [apply_ite DB.reviewItems] at hzero
  dsimp only at hzero
  rw [ite_self] at hzero
  rw [hzero]
  simp only [beq_self_eq_true, if_true, reduceIte]
  refine ⟨trivial, ?_⟩
  intro jb' hmem hid
  rcases List.mem_map.mp hmem with ⟨jb, hjb, hfjb⟩
  by_cases hcond : (jb.id == item.importId &&
      (jb.status == "needs_review" || jb.status == "partial")) = true
  · rw [if_pos hcond] at hfjb
    rw [← hfjb]
  · rw [if_neg hcond] at hfjb
    subst hfjb
    have hsts := hst jb hjb hid
    exfalso
    apply hcond
    simp only [Bool.and_eq_true, beq_iff_eq, Bool.or_eq_true]
    exact ⟨hid, hsts⟩

/-- C5 (amended): the sign convention is not uniform across entry points.
Import insertion stores the normalized signed amount unchanged and review
resolution stores the caller's signed amount unchanged, but manual entry
stores `abs(amount_cents)` and installment-group creation stores only
absolute per-installment amounts — so expenses are negative only on
the import and review paths. -/
theorem sign_convention_per_endpoint (u : Nat) (p : ResolvePayload)
    (gp : GroupPayload) (row : Row) (nr : NormRow) (mp : Option RowMapping)
    (acct : Option Nat) (st : String) (j i rid : Nat) (db : DB)
    (item : ReviewItem) :
    ((createTransaction u p db).1.transactions.map (fun t => t.amountCents) =
      db.transactions.map (fun t => t.amountCents) ++ [|p.amountCents|]) ∧
    (∀ t ∈ (createGroup u gp db).1.transactions,
      t ∈ db.transactions ∨ 0 ≤ t.amountCents) ∧
    (mapRow row mp = Except.ok nr →
      findExistingTx db u acct (buildDedupeHash nr.date nr.description
        nr.amountCents (pyOrScope acct)) = none →
      (processRows u acct st j mp i [row] db).1.transactions.map
          (fun t => t.amountCents) =
        db.transactions.map (fun t => t.amountCents) ++ [nr.amountCents]) ∧
    (db.reviewItems.find? (fun it =>
        it.id == rid && it.userId == u && it.status == "pending") = some item →
      findExistingTx db u (pyOrNat p.accountId item.resolvedAccountId)
        (buildDedupeHash p.date p.description p.amountCents
          (pyOrScope (pyOrNat p.accountId item.resolvedAccountId))) = none →
      (confirmPendingRow u rid p db).1.transactions.map
          (fun t => t.amountCents) =
        db.transactions.map (fun t => t.amountCents) ++ [p.amountCents]) := by
  refine ⟨?_, ?_, ?_, ?_⟩
  · simp [createTransaction]
  · intro t hmem
    unfold createGroup at hmem
    split at hmem
    · exact Or.inl hmem
    · split at hmem
      · exact Or.inl hmem
      · dsimp only at hmem
        split at hmem
        · dsimp only at hmem
          rw [List.mem_append] at hmem
          rcases hmem with hold | hnew
          · exact Or.inl hold
          · right
            rw [List.reduceOption_mem_iff] at hnew
            rcases List.mem_map.mp hnew with ⟨k, _, hk⟩
            rcases hd : addMonths gp.startDate ((((k + 1 : Nat) : Int) - 1) *
                gp.intervalMonths) with _ | d
            · rw [hd] at hk
              exact absurd hk (by simp)
            · rw [hd] at hk
              have hk2 := Option.some.inj hk
              rw [← hk2]
              exact abs_nonneg _
        · exact Or.inl hmem
  · intro hm hfr
    simp only [processRows, hm, hfr]
    simp [processRows]
  · intro hfind hnoex
    simp only [confirmPendingRow, hfind, hnoex]
    rw [apply_ite DB.transactions]
    dsimp only
    rw [ite_self]
    simp

/-! ## Witnesses: each hypothesis-bearing claim theorem applied at a
concrete input, with the hypotheses discharged by evaluation. -/

/-- Witness for the amended C2 theorem at a concrete two-row file. -/
theorem import_reimport_idempotent_witness :
    ([padariaRow, farmaciaRow].all (rowOk none) = true) ∧
    ([padariaRow, farmaciaRow].map (rowHashOf none none)).Nodup ∧
    rowsFresh none none 1 emptyDB [padariaRow, farmaciaRow] = true ∧
    ((importTabular 1 "a.csv" (Except.ok [padariaRow, farmaciaRow]) none none
        emptyDB).2 = Except.ok ⟨emptyDB.nextJobId, 2, 0, 0⟩ ∧
      (importTabular 1 "b.csv" (Except.ok [padariaRow, farmaciaRow]) none none
          (importTabular 1 "a.csv" (Except.ok [padariaRow, farmaciaRow]) none
            none emptyDB).1).2 =
        Except.ok ⟨(importTabular 1 "a.csv"
          (Except.ok [padariaRow, farmaciaRow]) none none
            emptyDB).1.nextJobId, 0, 2, 0⟩ ∧
      (importTabular 1 "b.csv" (Except.ok [padariaRow, farmaciaRow]) none none
          (importTabular 1 "a.csv" (Except.ok [padariaRow, farmaciaRow]) none
            none emptyDB).1).1.transactions =
        (importTabular 1 "a.csv" (Except.ok [padariaRow, farmaciaRow]) none
          none emptyDB).1.transactions) :=
  ⟨by decide, by decide, by decide,
    import_reimport_idempotent 1 "a.csv" "b.csv" [padariaRow, farmaciaRow]
      none none emptyDB (by decide) (by decide) (by decide) _ _ rfl⟩

/-- Witness for the amended C3 theorem at `"45,90 DR"`. -/
theorem amount_sign_markers_witness :
    parseAmountStr "45,90 DR" = some (-4590) ∧
    (parseAmountStr "45,90 DR" = some (-4590) ∧
      parseAmountStr "5000,00 CR" = some 500000 ∧
      parseAmountStr "R$ 1.234,56" = some 123456 ∧
      parseAmountToCents (CellValue.floatV (-1234) 2) = some (-1234) ∧
      ((amountScan "45,90 DR").debit = true →
        (amountScan "45,90 DR").credit = false →
        (amountScan "45,90 DR").leadPlus = false → (-4590 : Int) ≤ 0) ∧
      ((amountScan "45,90 DR").credit = true →
        (amountScan "45,90 DR").debit = false →
        (amountScan "45,90 DR").trailDash = false → (0 : Int) ≤ -4590)) :=
  ⟨by decide, amount_sign_markers "45,90 DR" (-4590) (by decide)⟩

/-- Witness for the C4 theorem: the first-pattern-wins clause applied to a
concrete D/M/Y date. -/
theorem normalize_date_resolution_witness :
    normalizeDate "07/08/2026" = some "2026-08-07" :=
  normalize_date_resolution.2.2.2.2.2.2.2.2.1 "07/08/2026" (2026, 8, 7)
    (by decide)

/-- Witness for the amended C5 theorem: the manual path stores the
magnitude while the review path stores the signed amount. -/
theorem sign_convention_per_endpoint_witness :
    ((createTransaction 1 itemPayload emptyDB).1.transactions.map
        (fun t => t.amountCents) =
      emptyDB.transactions.map (fun t => t.amountCents) ++
        [|itemPayload.amountCents|]) ∧
    ((confirmPendingRow 1 1 itemPayload pendingDB).1.transactions.map
        (fun t => t.amountCents) =
      pendingDB.transactions.map (fun t => t.amountCents) ++
        [itemPayload.amountCents]) :=
  ⟨(sign_convention_per_endpoint 1 itemPayload notebookPayload padariaRow
      padariaNorm none none "csv" 1 1 1 emptyDB pendingItem).1,
    (sign_convention_per_endpoint 1 itemPayload notebookPayload padariaRow
      padariaNorm none none "csv" 1 1 1 pendingDB pendingItem).2.2.2
      (by decide) (by decide)⟩

/-- Witness for the C6 theorem at a failing XLSX parse. -/
theorem parser_failure_aborts_import_witness :
    (∀ jb ∈ emptyDB.jobs, jb.id ≠ emptyDB.nextJobId) ∧
    ((importTabular 1 "f.xlsx" (Except.error "boom") none none emptyDB).1 =
      { emptyDB with
        jobs := emptyDB.jobs ++
          [⟨emptyDB.nextJobId, 1, sourceTypeOf "f.xlsx", "f.xlsx",
            "needs_review", "parse_error: " ++ "boom"⟩]
        nextJobId := emptyDB.nextJobId + 1 } ∧
      (importTabular 1 "f.xlsx" (Except.error "boom") none none emptyDB).2 =
        Except.error 400 ∧
      (importTabular 1 "f.xlsx" (Except.error "boom") none none
        emptyDB).1.transactions = emptyDB.transactions ∧
      (importTabular 1 "f.xlsx" (Except.error "boom") none none
        emptyDB).1.reviewItems = emptyDB.reviewItems) :=
  ⟨by simp [emptyDB],
    parser_failure_aborts_import 1 "f.xlsx" "boom" none none emptyDB
      (by simp [emptyDB])⟩

/-- Witness for the C7 theorem: one malformed date row among two valid
rows. -/
theorem row_failures_isolated_and_status_witness :
    (∀ jb ∈ emptyDB.jobs, jb.id ≠ emptyDB.nextJobId) ∧
    (∃ resp : ImportResp,
      (importTabular 1 "x.csv"
        (Except.ok [padariaRow, badDateRow, farmaciaRow]) none none
          emptyDB).2 = Except.ok resp ∧
      resp.pending =
        (rowFailures none 1 [padariaRow, badDateRow, farmaciaRow]).length ∧
      resp.inserted + resp.duplicates =
        ([padariaRow, badDateRow, farmaciaRow].filter (rowOk none)).length ∧
      (importTabular 1 "x.csv"
        (Except.ok [padariaRow, badDateRow, farmaciaRow]) none none
          emptyDB).1.jobs =
        emptyDB.jobs ++
          [⟨emptyDB.nextJobId, 1, sourceTypeOf "x.csv", "x.csv",
            (if 0 < resp.pending ∧ resp.inserted = 0 then "needs_review"
             else if 0 < resp.pending then "partial" else "ok"),
            String.intercalate "\n"
              ((rowFailures none 1 [padariaRow, badDateRow, farmaciaRow]).map
                (fun q => "row " ++ toString q.1 ++ ": " ++ q.2.2))⟩] ∧
      (importTabular 1 "x.csv"
        (Except.ok [padariaRow, badDateRow, farmaciaRow]) none none
          emptyDB).1.reviewItems.map itemData =
        emptyDB.reviewItems.map itemData ++
          (rowFailures none 1 [padariaRow, badDateRow, farmaciaRow]).map
            (fun q => (emptyDB.nextJobId, 1, q.1, serializeRow q.2.1, q.2.2,
              "pending", none))) :=
  ⟨by simp [emptyDB],
    row_failures_isolated_and_status 1 "x.csv"
      [padariaRow, badDateRow, farmaciaRow] none none emptyDB
      (by simp [emptyDB])⟩

/-- Witness for the C8 theorem on a concrete collision. -/
theorem confirm_duplicate_no_insert_witness :
    (collideDB.reviewItems.find? (fun it =>
      it.id == 1 && it.userId == 1 && it.status == "pending") =
        some pendingItem) ∧
    (findExistingTx collideDB 1
      (pyOrNat itemPayload.accountId pendingItem.resolvedAccountId)
      (buildDedupeHash itemPayload.date itemPayload.description
        itemPayload.amountCents
        (pyOrScope (pyOrNat itemPayload.accountId
          pendingItem.resolvedAccountId))) = some collideTx) ∧
    ((confirmPendingRow 1 1 itemPayload collideDB).2 =
      Except.ok ⟨"duplicate", collideTx.id⟩ ∧
      (confirmPendingRow 1 1 itemPayload collideDB).1.transactions =
        collideDB.transactions ∧
      (confirmPendingRow 1 1 itemPayload collideDB).1.reviewItems =
        collideDB.reviewItems.map (fun it =>
          if it.id == pendingItem.id then { it with status := "duplicate" }
          else it) ∧
      (confirmPendingRow 1 1 itemPayload collideDB).1.jobs =
        collideDB.jobs) :=
  ⟨by decide, by decide,
    confirm_duplicate_no_insert 1 1 itemPayload collideDB pendingItem
      collideTx (by decide) (by decide)⟩

/-- Witness for the amended C9 theorem: resolving the last pending item of
a `needs_review` job flips the job to `ok`. -/
theorem confirm_resolved_promotes_job_witness :
    (pendingDB.reviewItems.find? (fun it =>
      it.id == 1 && it.userId == 1 && it.status == "pending") =
        some pendingItem) ∧
    (((confirmPendingRow 1 1 itemPayload pendingDB).1.reviewItems.filter
      (fun it => it.importId == pendingItem.importId &&
        it.status == "pending")).length = 0) ∧
    ((confirmPendingRow 1 1 itemPayload pendingDB).2 =
      Except.ok ⟨"resolved", pendingDB.nextTxId⟩ ∧
      (∀ jb ∈ (confirmPendingRow 1 1 itemPayload pendingDB).1.jobs,
        jb.id = pendingItem.importId → jb.status = "ok")) :=
  ⟨by decide, by decide,
    confirm_resolved_promotes_job 1 1 itemPayload pendingDB pendingItem
      (by decide) (by decide) (by decide) (by decide)⟩

end Cashlabs
